import Mathlib

/-!
# terminal-graphics: nearest-colour quantisation and box resampling

A shallow embedding of `src/img.cpp` (the colour distance, the nearest-palette
search, the per-pixel quantiser `decode_file`, the box resampler
`decode_and_resize`, the renderer `display` and the palette loader of `main`)
together with the properties proved about it.

Conventions of the embedding.

* `int` values are mathematical integers (`Int`); wherever the C++ code converts
  to or from `unsigned int`, or computes in `unsigned int`, the reduction modulo
  `2^32 = 4294967296` is written out (`to_unsigned`, `to_int`, `% 4294967296`).
* `unsigned char` is `Fin 256`, so a byte outside `[0,255]` cannot be written down.
* The global `std::array<unsigned int, 256> colors` is a function `Fin 256 → Nat`
  that is passed explicitly.
* `lodepng::decode` is external: its result (width, height, RGB byte buffer) is an
  input of the embedding, `none` standing for a non-zero error code.
* `int** imgout` is a function from row and column to the stored `int`; the loops
  pass it along as explicit state.
* What is written to `std::cout` is a `String`; `colors.txt` is the list of its
  lines, each a list of characters; `std::getline` and `std::stoi` follow the C++
  standard library.
-/

namespace TerminalGraphics

/-! ## Machine integers -/

/-- Conversion `int → unsigned int`: the residue modulo `2^32`. -/
def to_unsigned (x : Int) : Nat := (x % 4294967296).toNat

/-- Conversion `unsigned int → int` (two's complement): residues from `2^31` on
are negative. -/
def to_int (n : Nat) : Int :=
  if n % 4294967296 < 2147483648 then ((n % 4294967296 : Nat) : Int)
  else ((n % 4294967296 : Nat) : Int) - 4294967296

/-- An `unsigned char`. -/
abbrev Byte := Fin 256

/-- The global `colors`: 256 `unsigned int` entries. -/
abbrev Palette := Fin 256 → Nat

/-- The result of `lodepng::decode(data, width, height, file, LCT_RGB)`. -/
structure Image where
  width : Nat
  height : Nat
  data : List Byte

/-- An `int**` grid: the `int` stored at a row and a column. -/
abbrev Grid := Nat → Nat → Int

/-- The integers `lo, lo+1, ..., hi-1` visited by `for (int a=lo; a<hi; a++)`. -/
def int_range (lo hi : Int) : List Int :=
  (List.range (hi - lo).toNat).map (fun (k : Nat) => lo + (k : Int))

/-! ## Colours (img.cpp lines 33-60) -/

/-- `combine_rgb`: `b + (g<<8) + (r<<16)`; the shifts are the multiplications by
`2^8` and `2^16`. Every call site passes `unsigned char` values, for which the sum
stays below `2^24`. -/
def combine_rgb (r g b : Int) : Int := b + g * 256 + r * 65536

/-- `color_difference`: on a two's complement `int`, `c >> n` is the arithmetic
shift, the floor of `c / 2^n`, and `x & 0xFF` is the residue of `x` modulo 256. -/
def color_difference (c1 c2 : Int) : Int :=
  let db := (c1 % 256) - (c2 % 256)
  let dg := ((c1 / 256) % 256) - ((c2 / 256) % 256)
  let dr := ((c1 / 65536) % 256) - ((c2 / 65536) % 256)
  db * db + dg * dg + dr * dr

/-- The state `(best, distance)` of `closest_color` when its loop over
`i = 0, ..., 255` has finished; `colors[i]` is converted to `int` by the call. -/
def closest_color_loop (colors : Palette) (color : Int) : Int × Int :=
  (List.finRange 256).foldl
    (fun (st : Int × Int) (i : Fin 256) =>
      if st.2 > color_difference color (to_int (colors i)) then
        ((i.val : Int), color_difference color (to_int (colors i)))
      else st)
    (-1, 1000000)

/-- `closest_color` returns `best`. -/
def closest_color (colors : Palette) (color : Int) : Int :=
  (closest_color_loop colors color).1

/-! ## Reading the pixel buffer -/

/-- `data[idx]`; an index past the end of the buffer (undefined in C++) reads 0. -/
def byte_at (data : List Byte) (idx : Nat) : Int := ((data.getD idx 0).val : Int)

/-- `3*(width*i+j)+k` as `decode_file` computes it, in `unsigned int`. -/
def file_index (width : Nat) (i j k : Nat) : Nat :=
  (3 * ((width * i + j) % 4294967296) + k) % 4294967296

/-- The colour `decode_file` quantises at row `i`, column `j`. -/
def file_pixel (img : Image) (i j : Nat) : Int :=
  combine_rgb (byte_at img.data (file_index img.width i j 0))
              (byte_at img.data (file_index img.width i j 1))
              (byte_at img.data (file_index img.width i j 2))

/-- `decode_file` after a successful decode: one freshly allocated row per image
row, one quantised entry per column. -/
def decode_file (colors : Palette) (decoded : Option Image) : Except String (List (List Int)) :=
  match decoded with
  | none => Except.error "could not open file"
  | some img =>
    Except.ok ((List.range img.height).map (fun i =>
      (List.range img.width).map (fun j => closest_color colors (file_pixel img i j))))

/-! ## The box resampler (img.cpp lines 89-130) -/

/-- `int x1 = height * i / rows`: the product and the quotient are computed in
`unsigned int`, the result is converted to `int`. -/
def x1 (height : Nat) (rows : Int) (i : Nat) : Int :=
  to_int ((height * i % 4294967296) / to_unsigned rows)

/-- `int x2 = height * (i+1) / rows`. -/
def x2 (height : Nat) (rows : Int) (i : Nat) : Int :=
  to_int ((height * (i + 1) % 4294967296) / to_unsigned rows)

/-- `int y1 = width * j / cols`. -/
def y1 (width : Nat) (cols : Int) (j : Nat) : Int :=
  to_int ((width * j % 4294967296) / to_unsigned cols)

/-- `int y2 = width * (j+1) / cols`. -/
def y2 (width : Nat) (cols : Int) (j : Nat) : Int :=
  to_int ((width * (j + 1) % 4294967296) / to_unsigned cols)

/-- `3*(a*width+b)+k` as `decode_and_resize` computes it: `a` and `b` are converted
to `unsigned int` and the arithmetic is modulo `2^32`. -/
def pixel_index (width : Nat) (a b : Int) (k : Nat) : Nat :=
  (3 * ((to_unsigned a * width + to_unsigned b) % 4294967296) + k) % 4294967296

/-- The colour `combine_rgb(data[3*(a*width+b)+0], ...+1], ...+2])` of the source
pixel in row `a`, column `b`. -/
def pixel (img : Image) (a b : Int) : Int :=
  combine_rgb (byte_at img.data (pixel_index img.width a b 0))
              (byte_at img.data (pixel_index img.width a b 1))
              (byte_at img.data (pixel_index img.width a b 2))

/-- The value of `curr_cost` after the loops over `a` in `[xlo,xhi)` and `b` in
`[ylo,yhi)`: an `unsigned int` accumulator, every `+=` reduced modulo `2^32`. -/
def curr_cost (colors : Palette) (img : Image) (xlo xhi ylo yhi : Int) (index : Fin 256) : Nat :=
  (int_range xlo xhi).foldl
    (fun acc a =>
      (int_range ylo yhi).foldl
        (fun acc b =>
          (acc + to_unsigned (color_difference (pixel img a b) (to_int (colors index))))
            % 4294967296)
        acc)
    0

/-- The state `(closest, cost)` after the loop over `index = 0, ..., 255`;
`unsigned int cost = -1` is `2^32 - 1`. -/
def cell_loop (colors : Palette) (img : Image) (xlo xhi ylo yhi : Int) : Int × Nat :=
  (List.finRange 256).foldl
    (fun (st : Int × Nat) (index : Fin 256) =>
      if curr_cost colors img xlo xhi ylo yhi index < st.2 then
        ((index.val : Int), curr_cost colors img xlo xhi ylo yhi index)
      else st)
    (-1, 4294967295)

/-- The value assigned to `imgout[i][j]`. -/
def cell (colors : Palette) (img : Image) (rows cols : Int) (i j : Nat) : Int :=
  (cell_loop colors img (x1 img.height rows i) (x2 img.height rows i)
    (y1 img.width cols j) (y2 img.width cols j)).1

/-- The assignment `imgout[i][j] = v`. -/
def set_cell (g : Grid) (i j : Nat) (v : Int) : Grid :=
  fun r c => if r = i ∧ c = j then v else g r c

/-- Lines 95-129: the two guards (`rows` and `cols` compared as `unsigned int`) and
the loops over `i` and `j`. -/
def resize_loops (colors : Palette) (img : Image) (imgout : Grid) (rows cols : Int) : Grid :=
  if to_unsigned rows ≤ img.height then
    if to_unsigned cols ≤ img.width then
      (List.range rows.toNat).foldl
        (fun g i =>
          (List.range cols.toNat).foldl
            (fun g j => set_cell g i j (cell colors img rows cols i j))
            g)
        imgout
    else imgout
  else imgout

/-- `decode_and_resize`: throws when the decode fails, otherwise runs the loops on
`imgout`. -/
def decode_and_resize (colors : Palette) (decoded : Option Image) (imgout : Grid)
    (rows cols : Int) : Except String Grid :=
  match decoded with
  | none => Except.error "could not open file: "
  | some img => Except.ok (resize_loops colors img imgout rows cols)

/-! ## The renderer (img.cpp lines 137-145) -/

/-- The characters that follow `m` in the second string literal of `display`. In
`src/img.cpp` they are the bytes `c3 a2 e2 80 93 cb 86`: the three characters
U+00E2, U+2013, U+02C6. -/
def glyph_literal : String := "â–ˆ"

/-- What `display` inserts into `std::cout` for one cell: the literal
`"\u001b[38;5;"`, the `int` in decimal, and the literal that starts with `m`. -/
def display_cell (v : Int) : String :=
  "\x1b[38;5;" ++ toString v ++ ("m" ++ glyph_literal)

/-- `display`: the characters written to `std::cout` by the loops over `i` and `j`
(the final `flush` writes nothing). -/
def display (rows cols : Int) (colors : Grid) : String :=
  (List.range rows.toNat).foldl
    (fun out i =>
      (List.range cols.toNat).foldl
        (fun out j => out ++ display_cell (colors i j))
        (out ++ "\n"))
    ""

/-! ## The palette loader and `main` (img.cpp lines 147-173) -/

/-- The ways the palette loader of `main` can fail: the two exceptions of
`std::stoi`, and a read past the 15 characters of `line` (undefined behaviour). -/
inductive LoadError where
  | invalid_argument
  | out_of_range
  | out_of_bounds
deriving DecidableEq

/-- The terminating null character of a C string. -/
def NUL : Char := Char.ofNat 0

/-- The input side of the loader: the 15 characters of `line`, the `failbit` of
`color_file`, and the lines of `colors.txt` not yet read. -/
structure Reader where
  line : List Char
  failed : Bool
  rest : List (List Char)

/-- Storing the characters `s` at the start of the array `line`. -/
def store (line s : List Char) : List Char := s ++ line.drop s.length

/-- `color_file.getline(line, 15)`: at most 14 characters of the next line and a
terminating null are stored; a longer line sets `failbit`; with `failbit` set, or
at the end of the file, only a null character is stored at `line[0]`. -/
def getline (r : Reader) : Reader :=
  if r.failed then { r with line := store r.line [NUL] }
  else
    match r.rest with
    | [] => { line := store r.line [NUL], failed := true, rest := [] }
    | l :: ls =>
      if l.length ≤ 14 then { line := store r.line (l ++ [NUL]), failed := false, rest := ls }
      else { line := store r.line (l.take 14 ++ [NUL]), failed := true, rest := ls }

/-- `while (line[index++] != ':');` followed by `line+index`: the characters after
the first colon of the array, `none` when the array holds no colon (the scan then
reads past its end). -/
def after_colon : List Char → Option (List Char)
  | [] => none
  | c :: t => if c = ':' then some t else after_colon t

/-- The C string that starts an array: the characters before the first null,
`none` when the array holds no null. -/
def c_string : List Char → Option (List Char)
  | [] => none
  | c :: t => if c = NUL then some [] else (c_string t).map (fun s => c :: s)

/-- `isspace` in the C locale. -/
def is_space (c : Char) : Bool := c.toNat = 32 || (9 ≤ c.toNat && c.toNat ≤ 13)

/-- The value of a hexadecimal digit. -/
def hex_digit (c : Char) : Option Nat :=
  if 48 ≤ c.toNat ∧ c.toNat ≤ 57 then some (c.toNat - 48)
  else if 97 ≤ c.toNat ∧ c.toNat ≤ 102 then some (c.toNat - 87)
  else if 65 ≤ c.toNat ∧ c.toNat ≤ 70 then some (c.toNat - 55)
  else none

/-- Removal of one optional sign. -/
def drop_sign : List Char → List Char
  | [] => []
  | c :: t => if c = '-' ∨ c = '+' then t else c :: t

/-- Removal of an optional `0x` or `0X` that a hexadecimal digit follows. -/
def drop_0x : List Char → List Char
  | c0 :: c1 :: c2 :: t =>
    if c0 = '0' ∧ (c1 = 'x' ∨ c1 = 'X') ∧ (hex_digit c2).isSome then c2 :: t
    else c0 :: c1 :: c2 :: t
  | s => s

/-- Accumulation of hexadecimal digits, most significant first. -/
def digits_value (ds : List Char) : Nat :=
  ds.foldl (fun acc c => 16 * acc + (hex_digit c).getD 0) 0

/-- `std::stoi(s, nullptr, 16)` on a C string: white space, an optional sign and an
optional `0x` are skipped, then the longest run of hexadecimal digits is converted;
no digit throws `std::invalid_argument`, a value that is not an `int` throws
`std::out_of_range`. -/
def stoi_base16 (s : List Char) : Except LoadError Int :=
  let s1 := s.dropWhile is_space
  let ds := (drop_0x (drop_sign s1)).takeWhile (fun c => (hex_digit c).isSome)
  if ds = [] then Except.error LoadError.invalid_argument
  else
    let v : Int := if s1.head? = some '-' then -(digits_value ds : Int) else (digits_value ds : Int)
    if v < -2147483648 ∨ 2147483647 < v then Except.error LoadError.out_of_range
    else Except.ok v

/-- One iteration of the loader loop: `getline`, the scan for the colon, `std::stoi`
and the assignment `colors[i] = ...`, which converts the `int` to `unsigned int`. -/
def load_step (st : Reader × Palette) (i : Fin 256) : Except LoadError (Reader × Palette) :=
  match after_colon (getline st.1).line with
  | none => Except.error LoadError.out_of_bounds
  | some t =>
    match c_string t with
    | none => Except.error LoadError.out_of_bounds
    | some s =>
      match stoi_base16 s with
      | Except.error e => Except.error e
      | Except.ok v => Except.ok (getline st.1, Function.update st.2 i (to_unsigned v))

/-- The loader loop over a list of indices; an exception ends it. -/
def load_loop : List (Fin 256) → Reader × Palette → Except LoadError (Reader × Palette)
  | [], st => Except.ok st
  | i :: rest, st =>
    match load_step st i with
    | Except.error e => Except.error e
    | Except.ok st2 => load_loop rest st2

/-- Lines 152-161 of `main`: `colors.txt` is opened (`none`: the file cannot be
opened and `failbit` is set), `line0` is what the fresh array `line` holds, and the
global `colors` starts zero-initialised. -/
def load_colors (line0 : List Char) (file : Option (List (List Char))) :
    Except LoadError Palette :=
  match load_loop (List.finRange 256) (⟨line0, file.isNone, file.getD []⟩, fun _ => 0) with
  | Except.error e => Except.error e
  | Except.ok st => Except.ok st.2

/-- An uncaught exception of `main`. -/
inductive MainError where
  | load (e : LoadError)
  | decode (what : String)

/-- `main`: exit status and text written to `std::cout`. `rows` and `cols` are what
`tput` reports, `grid0` is the freshly allocated grid, `decoded` the result of
decoding `argv[1]`. -/
def main (argc : Nat) (line0 : List Char) (file : Option (List (List Char)))
    (rows cols : Int) (grid0 : Grid) (decoded : Option Image) :
    Except MainError (Int × String) :=
  if argc = 1 then Except.ok (1, "You didn't give me an image :(\n")
  else
    match load_colors line0 file with
    | Except.error e => Except.error (MainError.load e)
    | Except.ok colors =>
      match decode_and_resize colors decoded grid0 rows cols with
      | Except.error what => Except.error (MainError.decode what)
      | Except.ok g => Except.ok (0, display rows cols g ++ "\n")

/-! ## Specification-side notions -/

/-- The exact sum of the addends of `curr_cost`: the sum, over rows `[xlo,xhi)` and
columns `[ylo,yhi)`, of the distance between the pixel the resampler reads there
(`pixel`, with its 32-bit byte position) and `palette[k]`; the sum itself is not
reduced modulo `2^32`. The cost over the source pixels of a box is `source_cost`. -/
def aggregate_cost (colors : Palette) (img : Image) (xlo xhi ylo yhi : Int) (k : Fin 256) : Int :=
  ((int_range xlo xhi).map (fun a =>
    ((int_range ylo yhi).map (fun b =>
      color_difference (pixel img a b) (to_int (colors k)))).sum)).sum

/-- The sum, over the box, of the distances as `unsigned int` values. -/
def box_sum (colors : Palette) (img : Image) (xlo xhi ylo yhi : Int) (index : Fin 256) : Nat :=
  ((int_range xlo xhi).map (fun a =>
    ((int_range ylo yhi).map (fun b =>
      to_unsigned (color_difference (pixel img a b) (to_int (colors index))))).sum)).sum

/-- The blue channel of a colour, as `color_difference` extracts it. -/
def blue (c : Int) : Int := c % 256

/-- The green channel of a colour. -/
def green (c : Int) : Int := (c / 256) % 256

/-- The red channel of a colour. -/
def red (c : Int) : Int := (c / 65536) % 256

/-- The sum of `f (pixel)` over the pixels the resampler reads (`pixel`) in rows
`[xlo,xhi)` and columns `[ylo,yhi)`. Its counterpart over source pixels is
`source_total`. -/
def box_total (img : Image) (xlo xhi ylo yhi : Int) (f : Int → Int) : Int :=
  ((int_range xlo xhi).map (fun a =>
    ((int_range ylo yhi).map (fun b => f (pixel img a b))).sum)).sum

/-- The number of pixels the resampler reads for the bounds `xlo, xhi, ylo, yhi`. -/
def box_count (xlo xhi ylo yhi : Int) : Nat := (xhi - xlo).toNat * (yhi - ylo).toNat

/-- The squared distance `|S - n * palette[k]|^2` between the per-channel sums `S` of
the `n` pixels the resampler reads in rows `[xlo,xhi)` and columns `[ylo,yhi)` and
`n` times palette entry `k`. Its counterpart over source pixels is
`source_sum_distance`. -/
def sum_distance (colors : Palette) (img : Image) (xlo xhi ylo yhi : Int) (k : Fin 256) : Int :=
  (box_total img xlo xhi ylo yhi red
      - (box_count xlo xhi ylo yhi : Int) * red (to_int (colors k))) ^ 2
  + (box_total img xlo xhi ylo yhi green
      - (box_count xlo xhi ylo yhi : Int) * green (to_int (colors k))) ^ 2
  + (box_total img xlo xhi ylo yhi blue
      - (box_count xlo xhi ylo yhi : Int) * blue (to_int (colors k))) ^ 2

/-- The squared distance between palette entry `k` and the per-channel mean of the
pixels the resampler reads in rows `[xlo,xhi)` and columns `[ylo,yhi)`, as a rational
number. Its counterpart over source pixels is `source_mean_distance`. -/
def mean_distance (colors : Palette) (img : Image) (xlo xhi ylo yhi : Int) (k : Fin 256) : Rat :=
  ((box_total img xlo xhi ylo yhi red : Int) / (box_count xlo xhi ylo yhi : Rat)
      - (red (to_int (colors k)) : Rat)) ^ 2
  + ((box_total img xlo xhi ylo yhi green : Int) / (box_count xlo xhi ylo yhi : Rat)
      - (green (to_int (colors k)) : Rat)) ^ 2
  + ((box_total img xlo xhi ylo yhi blue : Int) / (box_count xlo xhi ylo yhi : Rat)
      - (blue (to_int (colors k)) : Rat)) ^ 2

/-- The output the specification describes for a grid of `rows` rows and `cols`
columns: for each row a newline, then for each cell `ESC[38;5;<index>m` followed by
the glyph. -/
def expected_output (glyph : String) (rows cols : Nat) (g : Grid) : String :=
  String.join ((List.range rows).map (fun i =>
    "\n" ++ String.join ((List.range cols).map (fun j =>
      "\x1b[38;5;" ++ toString (g i j) ++ "m" ++ glyph))))

/-- The solid block glyph U+2588. -/
def block_glyph : String := "█"

/-- The base-16 value of a string of hexadecimal digits, most significant first. -/
def hex_value (ds : List Char) : Nat :=
  Nat.ofDigits 16 (ds.reverse.map (fun c => (hex_digit c).getD 0))

/-- The value text of a palette line: the characters after its first colon, up to
the end of the line (or to a null character in it); empty for a line without
colon. -/
def line_text (l : List Char) : List Char :=
  ((after_colon l).bind (fun t => c_string (t ++ [NUL]))).getD []

/-- The numbers `lo, lo+1, ..., hi-1`: the rows, or the columns, of a box. -/
def nat_range (lo hi : Nat) : List Nat := (List.range (hi - lo)).map (fun k => lo + k)

/-- The colour of source pixel `(a, b)`, row `a` and column `b` of the dense row-major
buffer of three bytes per pixel: the bytes at positions `3*(a*width+b)`,
`3*(a*width+b)+1` and `3*(a*width+b)+2` are its red, green and blue channels. The
positions are natural numbers; nothing is reduced modulo `2^32`. -/
def source_pixel (img : Image) (a b : Nat) : Int :=
  combine_rgb (byte_at img.data (3 * (a * img.width + b)))
    (byte_at img.data (3 * (a * img.width + b) + 1))
    (byte_at img.data (3 * (a * img.width + b) + 2))

/-- The first row of the box of grid row `i`: `floor (extent * i / cells)`, in exact
arithmetic (likewise the first column, with the width and the number of columns). -/
def box_lo (extent cells i : Nat) : Nat := extent * i / cells

/-- The row after the last row of the box of grid row `i`:
`floor (extent * (i + 1) / cells)`, in exact arithmetic. -/
def box_hi (extent cells i : Nat) : Nat := extent * (i + 1) / cells

/-- The sum of `f (source pixel)` over the source pixels in rows `[rlo, rhi)` and
columns `[clo, chi)`. -/
def source_total (img : Image) (rlo rhi clo chi : Nat) (f : Int → Int) : Int :=
  ((nat_range rlo rhi).map (fun a =>
    ((nat_range clo chi).map (fun b => f (source_pixel img a b))).sum)).sum

/-- The aggregate cost of palette entry `k` over the source pixels in rows
`[rlo, rhi)` and columns `[clo, chi)`: the sum of the distances between each source
pixel and `palette[k]`, in exact arithmetic. -/
def source_cost (colors : Palette) (img : Image) (rlo rhi clo chi : Nat) (k : Fin 256) : Int :=
  ((nat_range rlo rhi).map (fun a =>
    ((nat_range clo chi).map (fun b =>
      color_difference (source_pixel img a b) (to_int (colors k)))).sum)).sum

/-- The number of source pixels in rows `[rlo, rhi)` and columns `[clo, chi)`. -/
def source_count (rlo rhi clo chi : Nat) : Nat := (rhi - rlo) * (chi - clo)

/-- The squared distance `|S - n * palette[k]|^2` between the per-channel sums `S` of
the `n` source pixels in rows `[rlo, rhi)` and columns `[clo, chi)` and `n` times
palette entry `k`. -/
def source_sum_distance (colors : Palette) (img : Image) (rlo rhi clo chi : Nat)
    (k : Fin 256) : Int :=
  (source_total img rlo rhi clo chi red
      - (source_count rlo rhi clo chi : Int) * red (to_int (colors k))) ^ 2
  + (source_total img rlo rhi clo chi green
      - (source_count rlo rhi clo chi : Int) * green (to_int (colors k))) ^ 2
  + (source_total img rlo rhi clo chi blue
      - (source_count rlo rhi clo chi : Int) * blue (to_int (colors k))) ^ 2

/-- The squared distance between palette entry `k` and the per-channel mean of the
source pixels in rows `[rlo, rhi)` and columns `[clo, chi)`, as a rational number. -/
def source_mean_distance (colors : Palette) (img : Image) (rlo rhi clo chi : Nat)
    (k : Fin 256) : Rat :=
  ((source_total img rlo rhi clo chi red : Int) / (source_count rlo rhi clo chi : Rat)
      - (red (to_int (colors k)) : Rat)) ^ 2
  + ((source_total img rlo rhi clo chi green : Int) / (source_count rlo rhi clo chi : Rat)
      - (green (to_int (colors k)) : Rat)) ^ 2
  + ((source_total img rlo rhi clo chi blue : Int) / (source_count rlo rhi clo chi : Rat)
      - (blue (to_int (colors k)) : Rat)) ^ 2

/-! ## Concrete inputs -/

/-- A palette whose entry 0 is white and whose other entries are `0xFFFFFE`. -/
def palette_white_first : Palette := fun k => if k.val = 0 then 16777215 else 16777214

/-- A palette whose 256 entries all hold the colour `c`. -/
def palette_uniform (c : Nat) : Palette := fun _ => c

/-- An all-black image of one row and `n` columns. -/
def black_strip (n : Nat) : Image := ⟨n, 1, List.replicate (3 * n) 0⟩

/-- A palette holding red at index 0, blue at index 1 and black fillers. -/
def palette_red_blue : Palette :=
  fun k => if k.val = 0 then 16711680 else if k.val = 1 then 255 else 0

/-- The 2x2 image with a red first row and a blue second row. -/
def red_blue_image : Image := ⟨2, 2, [255, 0, 0, 255, 0, 0, 0, 0, 255, 0, 0, 255]⟩

/-- A palette whose entry 0 is black and whose other entries are white. -/
def palette_black_first : Palette := fun k => if k.val = 0 then 0 else 16777215

/-- An all-white image of one column and `n` rows. -/
def white_column (n : Nat) : Image := ⟨1, n, List.replicate (3 * n) 255⟩

/-- A palette file: the given first line followed by 255 lines `0:000000`. -/
def palette_file (first : List Char) : List (List Char) :=
  first :: List.replicate 255 "0:000000".toList

/-- A palette file whose second line `abc` has no colon and follows the line
`00000:ffffff`; 254 lines `0:000000` complete it. -/
def stale_file : List (List Char) :=
  "00000:ffffff".toList :: "abc".toList :: List.replicate 254 "0:000000".toList

/-- An image of 40000 rows and 40000 columns whose buffer is 0 in its first `2^32`
bytes and 255 in the `tail` bytes after them; with `tail = 505032704` the buffer has
`3 * 40000 * 40000` bytes, the pixels stored below position `2^32` are black and
those stored beyond it are white. -/
def two_tone_image (tail : Nat) : Image :=
  ⟨40000, 40000, List.replicate 4294967296 0 ++ List.replicate tail 255⟩

/-! ## Auxiliary lemmas -/

theorem color_difference_nonneg (c1 c2 : Int) : 0 ≤ color_difference c1 c2 := by
  unfold color_difference
  exact add_nonneg (add_nonneg (mul_self_nonneg _) (mul_self_nonneg _)) (mul_self_nonneg _)

theorem color_difference_le (c1 c2 : Int) : color_difference c1 c2 ≤ 195075 := by
  unfold color_difference
  simp only []
  have h1 := Int.emod_nonneg c1 (show (256 : Int) ≠ 0 by decide)
  have h2 := Int.emod_lt_of_pos c1 (show (0 : Int) < 256 by decide)
  have h3 := Int.emod_nonneg c2 (show (256 : Int) ≠ 0 by decide)
  have h4 := Int.emod_lt_of_pos c2 (show (0 : Int) < 256 by decide)
  have h5 := Int.emod_nonneg (c1 / 256) (show (256 : Int) ≠ 0 by decide)
  have h6 := Int.emod_lt_of_pos (c1 / 256) (show (0 : Int) < 256 by decide)
  have h7 := Int.emod_nonneg (c2 / 256) (show (256 : Int) ≠ 0 by decide)
  have h8 := Int.emod_lt_of_pos (c2 / 256) (show (0 : Int) < 256 by decide)
  have h9 := Int.emod_nonneg (c1 / 65536) (show (256 : Int) ≠ 0 by decide)
  have h10 := Int.emod_lt_of_pos (c1 / 65536) (show (0 : Int) < 256 by decide)
  have h11 := Int.emod_nonneg (c2 / 65536) (show (256 : Int) ≠ 0 by decide)
  have h12 := Int.emod_lt_of_pos (c2 / 65536) (show (0 : Int) < 256 by decide)
  have sq : ∀ x y : Int, 0 ≤ x → x < 256 → 0 ≤ y → y < 256 → (x - y) * (x - y) ≤ 65025 := by
    intro x y hx0 hx hy0 hy
    nlinarith [mul_nonneg (show (0 : Int) ≤ 255 - (x - y) by omega) (show (0 : Int) ≤ 255 + (x - y) by omega)]
  have a := sq _ _ h1 h2 h3 h4
  have b := sq _ _ h5 h6 h7 h8
  have c := sq _ _ h9 h10 h11 h12
  omega

/-- The running-minimum loop shared by `closest_color` and `decode_and_resize`. -/
theorem scan_first_min {α : Type} [LinearOrder α] (c : Fin 256 → α)
    (step : Int × α → Fin 256 → Int × α)
    (hlt : ∀ st i, c i < st.2 → step st i = ((i.val : Int), c i))
    (hge : ∀ st i, ¬ c i < st.2 → step st i = st)
    (b0 : Int) (d0 : α) (l : List (Fin 256)) (hl : l.Pairwise (fun a b => a < b)) :
    (l.foldl step (b0, d0) = (b0, d0) ∧ ∀ k ∈ l, d0 ≤ c k) ∨
    (∃ i ∈ l, l.foldl step (b0, d0) = ((i.val : Int), c i) ∧ c i < d0 ∧
      (∀ k ∈ l, c i ≤ c k) ∧ (∀ k ∈ l, k < i → c i < c k)) := by
  induction l using List.reverseRecOn with
  | nil => left; simp
  | append_singleton l z ih =>
    rw [List.pairwise_append] at hl
    obtain ⟨hl1, -, hl3⟩ := hl
    have hz : ∀ k ∈ l, k < z := fun k hk => hl3 k hk z (by simp)
    rw [List.foldl_concat]
    rcases ih hl1 with ⟨heq, hall⟩ | ⟨i, hi, heq, hid, hmin, hfirst⟩
    · rw [heq]
      by_cases hc : c z < d0
      · right
        refine ⟨z, by simp, hlt _ _ hc, hc, ?_, ?_⟩
        · intro k hk
          rcases List.mem_append.1 hk with hk | hk
          · exact le_of_lt (lt_of_lt_of_le hc (hall k hk))
          · simp at hk; rw [hk]
        · intro k hk hkz
          rcases List.mem_append.1 hk with hk | hk
          · exact lt_of_lt_of_le hc (hall k hk)
          · simp at hk; rw [hk] at hkz; exact absurd hkz (lt_irrefl _)
      · left
        refine ⟨hge _ _ hc, ?_⟩
        intro k hk
        rcases List.mem_append.1 hk with hk | hk
        · exact hall k hk
        · simp at hk; rw [hk]; exact not_lt.1 hc
    · rw [heq]
      right
      by_cases hc : c z < c i
      · refine ⟨z, by simp, hlt _ _ hc, lt_trans hc hid, ?_, ?_⟩
        · intro k hk
          rcases List.mem_append.1 hk with hk | hk
          · exact le_of_lt (lt_of_lt_of_le hc (hmin k hk))
          · simp at hk; rw [hk]
        · intro k hk hkz
          rcases List.mem_append.1 hk with hk | hk
          · exact lt_of_lt_of_le hc (hmin k hk)
          · simp at hk; rw [hk] at hkz; exact absurd hkz (lt_irrefl _)
      · refine ⟨i, List.mem_append_left _ hi, hge _ _ hc, hid, ?_, ?_⟩
        · intro k hk
          rcases List.mem_append.1 hk with hk | hk
          · exact hmin k hk
          · simp at hk; rw [hk]; exact not_lt.1 hc
        · intro k hk hki
          rcases List.mem_append.1 hk with hk | hk
          · exact hfirst k hk hki
          · simp at hk; rw [hk] at hki; exact absurd (lt_trans hki (hz i hi)) (lt_irrefl _)

theorem closest_color_loop_spec (colors : Palette) (color : Int) :
    ∃ i : Fin 256,
      closest_color_loop colors color
        = ((i.val : Int), color_difference color (to_int (colors i))) ∧
      (∀ k : Fin 256, color_difference color (to_int (colors i))
          ≤ color_difference color (to_int (colors k))) ∧
      (∀ k : Fin 256, k < i → color_difference color (to_int (colors i))
          < color_difference color (to_int (colors k))) := by
  have h := scan_first_min (fun i => color_difference color (to_int (colors i)))
    (fun (st : Int × Int) (i : Fin 256) =>
      if st.2 > color_difference color (to_int (colors i)) then
        ((i.val : Int), color_difference color (to_int (colors i)))
      else st)
    (fun st i hlt => if_pos hlt) (fun st i hge => if_neg hge)
    (-1) 1000000 (List.finRange 256) (List.pairwise_lt_finRange 256)
  rcases h with ⟨-, hall⟩ | ⟨i, -, heq, -, hmin, hfirst⟩
  · have h0 := hall 0 (List.mem_finRange _)
    have := color_difference_le color (to_int (colors 0))
    simp only [] at h0
    omega
  · exact ⟨i, heq, fun k => hmin k (List.mem_finRange _),
      fun k hk => hfirst k (List.mem_finRange _) hk⟩

theorem cell_loop_spec (colors : Palette) (img : Image) (xlo xhi ylo yhi : Int) :
    (cell_loop colors img xlo xhi ylo yhi = (-1, 4294967295) ∧
      ∀ k : Fin 256, 4294967295 ≤ curr_cost colors img xlo xhi ylo yhi k) ∨
    (∃ i : Fin 256,
      cell_loop colors img xlo xhi ylo yhi
        = ((i.val : Int), curr_cost colors img xlo xhi ylo yhi i) ∧
      curr_cost colors img xlo xhi ylo yhi i < 4294967295 ∧
      (∀ k : Fin 256, curr_cost colors img xlo xhi ylo yhi i
          ≤ curr_cost colors img xlo xhi ylo yhi k) ∧
      (∀ k : Fin 256, k < i → curr_cost colors img xlo xhi ylo yhi i
          < curr_cost colors img xlo xhi ylo yhi k)) := by
  have h := scan_first_min (fun i => curr_cost colors img xlo xhi ylo yhi i)
    (fun (st : Int × Nat) (index : Fin 256) =>
      if curr_cost colors img xlo xhi ylo yhi index < st.2 then
        ((index.val : Int), curr_cost colors img xlo xhi ylo yhi index)
      else st)
    (fun st i hlt => if_pos hlt) (fun st i hge => if_neg hge)
    (-1) 4294967295 (List.finRange 256) (List.pairwise_lt_finRange 256)
  rcases h with ⟨heq, hall⟩ | ⟨i, -, heq, hlt, hmin, hfirst⟩
  · exact Or.inl ⟨heq, fun k => hall k (List.mem_finRange _)⟩
  · exact Or.inr ⟨i, heq, hlt, fun k => hmin k (List.mem_finRange _),
      fun k hk => hfirst k (List.mem_finRange _) hk⟩

/-- Folding `+ f b` modulo `2^32` over a list adds the plain sum, modulo `2^32`. -/
theorem foldl_add_mod {β : Type} (f : β → Nat) (l : List β) (acc : Nat) :
    (l.foldl (fun acc b => (acc + f b) % 4294967296) acc) % 4294967296
      = (acc + (l.map f).sum) % 4294967296 := by
  induction l generalizing acc with
  | nil => simp
  | cons b l ih =>
    simp only [List.foldl_cons, List.map_cons, List.sum_cons]
    rw [ih]
    omega

theorem foldl_add_mod_lt {β : Type} (f : β → Nat) (l : List β) (acc : Nat)
    (h : acc < 4294967296) :
    l.foldl (fun acc b => (acc + f b) % 4294967296) acc < 4294967296 := by
  induction l generalizing acc with
  | nil => simpa using h
  | cons b l ih =>
    simp only [List.foldl_cons]
    exact ih _ (Nat.mod_lt _ (by decide))

theorem curr_cost_eq (colors : Palette) (img : Image) (xlo xhi ylo yhi : Int) (index : Fin 256) :
    curr_cost colors img xlo xhi ylo yhi index
      = box_sum colors img xlo xhi ylo yhi index % 4294967296 := by
  unfold curr_cost box_sum
  generalize int_range xlo xhi = la
  generalize int_range ylo yhi = lb
  have key : ∀ (l : List Int) (acc : Nat), acc < 4294967296 →
      (l.foldl (fun acc a => lb.foldl (fun acc b =>
          (acc + to_unsigned (color_difference (pixel img a b) (to_int (colors index))))
            % 4294967296) acc) acc) < 4294967296 ∧
      (l.foldl (fun acc a => lb.foldl (fun acc b =>
          (acc + to_unsigned (color_difference (pixel img a b) (to_int (colors index))))
            % 4294967296) acc) acc) % 4294967296
        = (acc + (l.map (fun a => (lb.map (fun b =>
            to_unsigned (color_difference (pixel img a b) (to_int (colors index))))).sum)).sum)
          % 4294967296 := by
    intro l
    induction l with
    | nil => intro acc h; simpa using h
    | cons a l ih =>
      intro acc h
      simp only [List.foldl_cons, List.map_cons, List.sum_cons]
      have h1 := foldl_add_mod_lt (fun b =>
        to_unsigned (color_difference (pixel img a b) (to_int (colors index)))) lb acc h
      have h2 := foldl_add_mod (fun b =>
        to_unsigned (color_difference (pixel img a b) (to_int (colors index)))) lb acc
      simp only [] at h1 h2
      obtain ⟨i1, i2⟩ := ih _ h1
      refine ⟨i1, ?_⟩
      rw [i2]
      omega
  obtain ⟨k1, k2⟩ := key la 0 (by decide)
  rw [← Nat.mod_eq_of_lt k1, k2]
  simp

theorem to_unsigned_color_difference (c1 c2 : Int) :
    ((to_unsigned (color_difference c1 c2) : Nat) : Int) = color_difference c1 c2 := by
  have h1 := color_difference_nonneg c1 c2
  have h2 := color_difference_le c1 c2
  unfold to_unsigned
  omega

theorem to_unsigned_color_difference_le (c1 c2 : Int) :
    to_unsigned (color_difference c1 c2) ≤ 195075 := by
  have h := to_unsigned_color_difference c1 c2
  have h2 := color_difference_le c1 c2
  omega

theorem length_int_range (lo hi : Int) : (int_range lo hi).length = (hi - lo).toNat := by
  unfold int_range
  rw [List.length_map, List.length_range]

theorem mem_int_range (lo hi a : Int) : a ∈ int_range lo hi ↔ lo ≤ a ∧ a < hi := by
  simp only [int_range, List.mem_map, List.mem_range]
  constructor
  · rintro ⟨k, hk, rfl⟩
    omega
  · rintro ⟨h1, h2⟩
    exact ⟨(a - lo).toNat, by omega, by omega⟩

theorem box_sum_cast (colors : Palette) (img : Image) (xlo xhi ylo yhi : Int) (k : Fin 256) :
    ((box_sum colors img xlo xhi ylo yhi k : Nat) : Int)
      = aggregate_cost colors img xlo xhi ylo yhi k := by
  unfold box_sum aggregate_cost
  generalize int_range xlo xhi = la
  generalize int_range ylo yhi = lb
  have inner : ∀ (a : Int) (l : List Int),
      (((l.map (fun b => to_unsigned (color_difference (pixel img a b) (to_int (colors k))))).sum
        : Nat) : Int)
      = (l.map (fun b => color_difference (pixel img a b) (to_int (colors k)))).sum := by
    intro a l
    induction l with
    | nil => simp
    | cons b l ih =>
      simp only [List.map_cons, List.sum_cons, Nat.cast_add, ih, to_unsigned_color_difference]
  induction la with
  | nil => simp
  | cons a l ih =>
    simp only [List.map_cons, List.sum_cons, Nat.cast_add, ih, inner]

theorem box_sum_le (colors : Palette) (img : Image) (xlo xhi ylo yhi : Int) (k : Fin 256) :
    box_sum colors img xlo xhi ylo yhi k
      ≤ 195075 * ((xhi - xlo).toNat * (yhi - ylo).toNat) := by
  unfold box_sum
  rw [← length_int_range xlo xhi, ← length_int_range ylo yhi]
  generalize int_range xlo xhi = la
  generalize int_range ylo yhi = lb
  have inner : ∀ (a : Int) (l : List Int),
      (l.map (fun b => to_unsigned (color_difference (pixel img a b) (to_int (colors k))))).sum
      ≤ 195075 * l.length := by
    intro a l
    induction l with
    | nil => simp
    | cons b l ih =>
      simp only [List.map_cons, List.sum_cons, List.length_cons]
      have := to_unsigned_color_difference_le (pixel img a b) (to_int (colors k))
      omega
  induction la with
  | nil => simp
  | cons a l ih =>
    simp only [List.map_cons, List.sum_cons, List.length_cons]
    have := inner a lb
    have e : 195075 * ((l.length + 1) * lb.length)
        = 195075 * (l.length * lb.length) + 195075 * lb.length := by ring
    omega

/-- When the box holds at most 22017 pixels the accumulator never wraps: it holds
the aggregate cost, which stays below the initial `cost`. -/
theorem curr_cost_small (colors : Palette) (img : Image) (xlo xhi ylo yhi : Int) (k : Fin 256)
    (h : (xhi - xlo).toNat * (yhi - ylo).toNat ≤ 22017) :
    ((curr_cost colors img xlo xhi ylo yhi k : Nat) : Int)
        = aggregate_cost colors img xlo xhi ylo yhi k ∧
      curr_cost colors img xlo xhi ylo yhi k < 4294967295 := by
  have h1 := box_sum_le colors img xlo xhi ylo yhi k
  have h2 := box_sum_cast colors img xlo xhi ylo yhi k
  have h3 := curr_cost_eq colors img xlo xhi ylo yhi k
  have h4 : 195075 * ((xhi - xlo).toNat * (yhi - ylo).toNat) ≤ 195075 * 22017 :=
    Nat.mul_le_mul_left _ h
  have h5 : box_sum colors img xlo xhi ylo yhi k < 4294967295 := by omega
  rw [Nat.mod_eq_of_lt (by omega)] at h3
  rw [h3]
  exact ⟨h2, h5⟩

theorem foldl_set_cell (f : Nat → Int) (i : Nat) (n : Nat) (g : Grid) :
    (List.range n).foldl (fun g j => set_cell g i j (f j)) g
      = fun r c => if r = i ∧ c < n then f c else g r c := by
  induction n with
  | zero => funext r c; simp
  | succ n ih =>
    rw [List.range_succ, List.foldl_append, ih]
    funext r c
    simp only [List.foldl_cons, List.foldl_nil, set_cell]
    by_cases h1 : r = i <;> by_cases h2 : c = n <;> by_cases h3 : c < n <;>
      simp [h1, h2, h3] <;> omega

theorem foldl_rows (f : Nat → Nat → Int) (m n : Nat) (g : Grid) :
    (List.range m).foldl
        (fun g i => (List.range n).foldl (fun g j => set_cell g i j (f i j)) g) g
      = fun r c => if r < m ∧ c < n then f r c else g r c := by
  induction m with
  | zero => funext r c; simp
  | succ m ih =>
    rw [List.range_succ, List.foldl_append, ih]
    simp only [List.foldl_cons, List.foldl_nil]
    rw [foldl_set_cell]
    funext r c
    by_cases h1 : r = m <;> by_cases h2 : r < m <;> by_cases h3 : c < n <;>
      simp [h1, h2, h3] <;> omega

/-- What the loops leave in `imgout` when both guards pass. -/
theorem resize_loops_apply (colors : Palette) (img : Image) (imgout : Grid) (rows cols : Int)
    (hr : to_unsigned rows ≤ img.height) (hc : to_unsigned cols ≤ img.width) :
    resize_loops colors img imgout rows cols
      = fun r c => if r < rows.toNat ∧ c < cols.toNat then cell colors img rows cols r c
                   else imgout r c := by
  unfold resize_loops
  rw [if_pos hr, if_pos hc]
  exact foldl_rows (fun i j => cell colors img rows cols i j) _ _ _

/-- Without wrap-around the range bound is the floor of `extent * i / cells`. -/
theorem bound_eq_floor (extent : Nat) (cells : Int) (i : Nat)
    (h1 : 1 ≤ extent) (hc : 1 ≤ cells) (he : extent < 2147483648)
    (hprod : (extent : Int) * cells < 4294967296) (hi : (i : Int) ≤ cells) :
    to_int ((extent * i % 4294967296) / to_unsigned cells)
      = ((extent * i / cells.toNat : Nat) : Int) := by
  obtain ⟨n, rfl⟩ : ∃ n : Nat, cells = (n : Int) := ⟨cells.toNat, by omega⟩
  have hn : 1 ≤ n := by omega
  have hin : i ≤ n := by omega
  have hp : extent * n < 4294967296 := by exact_mod_cast hprod
  have hlt : extent * i < 4294967296 := lt_of_le_of_lt (Nat.mul_le_mul_left _ hin) hp
  have hn2 : n < 4294967296 := lt_of_le_of_lt (Nat.le_mul_of_pos_left n h1) hp
  have hu : to_unsigned (n : Int) = n := by unfold to_unsigned; omega
  have hq : extent * i / n ≤ extent := by
    apply Nat.div_le_of_le_mul
    rw [Nat.mul_comm n extent]
    exact Nat.mul_le_mul_left _ hin
  rw [hu, Nat.mod_eq_of_lt hlt, Int.toNat_natCast]
  unfold to_int
  rw [Nat.mod_eq_of_lt (by omega), if_pos (by omega)]

theorem exists_step (f : Nat → Nat) (a : Nat) :
    ∀ n, f 0 ≤ a → a < f n → ∃ i, i < n ∧ f i ≤ a ∧ a < f (i + 1) := by
  intro n
  induction n with
  | zero => intro h0 h1; omega
  | succ n ih =>
    intro h0 h1
    by_cases h : a < f n
    · obtain ⟨i, hi, h2, h3⟩ := ih h0 h
      exact ⟨i, by omega, h2, h3⟩
    · exact ⟨n, by omega, by omega, h1⟩

/-- The floors of `extent * i / n`, `i = 0, ..., n`, cut `[0, extent)` into `n`
consecutive ranges. -/
theorem floor_partition (extent n : Nat) (hn : 1 ≤ n) (a : Nat) (ha : a < extent) :
    ∃! i : Nat, i < n ∧ extent * i / n ≤ a ∧ a < extent * (i + 1) / n := by
  have hmono : ∀ i j : Nat, i ≤ j → extent * i / n ≤ extent * j / n := fun i j hij =>
    Nat.div_le_div_right (Nat.mul_le_mul_left _ hij)
  have hend : extent * n / n = extent := Nat.mul_div_cancel _ (by omega)
  obtain ⟨i, hi, h2, h3⟩ := exists_step (fun i => extent * i / n) a n (by simp) (by
    simp only [hend]; exact ha)
  refine ⟨i, ⟨hi, h2, h3⟩, ?_⟩
  rintro j ⟨-, hj2, hj3⟩
  by_contra hne
  rcases Nat.lt_or_gt_of_ne hne with hlt | hgt
  · have := hmono (j + 1) i (by omega)
    have h2' : extent * i / n ≤ a := h2
    omega
  · have := hmono (i + 1) j (by omega)
    have h3' : a < extent * (i + 1) / n := h3
    omega

theorem byte_at_replicate_zero (n idx : Nat) : byte_at (List.replicate n 0) idx = 0 := by
  unfold byte_at
  rw [List.getD_eq_getElem?_getD, List.getElem?_replicate]
  split <;> simp

theorem pixel_black_strip (n : Nat) (a b : Int) : pixel (black_strip n) a b = 0 := by
  simp [pixel, black_strip, byte_at_replicate_zero, combine_rgb]

theorem box_sum_black_strip (colors : Palette) (n : Nat) (xlo xhi ylo yhi : Int) (k : Fin 256) :
    box_sum colors (black_strip n) xlo xhi ylo yhi k
      = (xhi - xlo).toNat *
          ((yhi - ylo).toNat * to_unsigned (color_difference 0 (to_int (colors k)))) := by
  unfold box_sum
  simp only [pixel_black_strip, List.map_const', List.sum_replicate, length_int_range,
    smul_eq_mul]

/-- In a box of at most 22017 pixels the loop ends on the lowest index that
minimises the aggregate cost. -/
theorem cell_loop_small (colors : Palette) (img : Image) (xlo xhi ylo yhi : Int)
    (h : (xhi - xlo).toNat * (yhi - ylo).toNat ≤ 22017) :
    ∃ k : Fin 256,
      (cell_loop colors img xlo xhi ylo yhi).1 = (k.val : Int) ∧
      (∀ m : Fin 256, aggregate_cost colors img xlo xhi ylo yhi k
          ≤ aggregate_cost colors img xlo xhi ylo yhi m) ∧
      (∀ m : Fin 256, m < k → aggregate_cost colors img xlo xhi ylo yhi k
          < aggregate_cost colors img xlo xhi ylo yhi m) := by
  rcases cell_loop_spec colors img xlo xhi ylo yhi with ⟨-, hall⟩ | ⟨k, heq, -, hmin, hfirst⟩
  · have h0 := hall 0
    have := (curr_cost_small colors img xlo xhi ylo yhi 0 h).2
    omega
  · refine ⟨k, by rw [heq], ?_, ?_⟩
    · intro m
      rw [← (curr_cost_small colors img xlo xhi ylo yhi k h).1,
        ← (curr_cost_small colors img xlo xhi ylo yhi m h).1]
      exact_mod_cast hmin m
    · intro m hm
      rw [← (curr_cost_small colors img xlo xhi ylo yhi k h).1,
        ← (curr_cost_small colors img xlo xhi ylo yhi m h).1]
      exact_mod_cast hfirst m hm

theorem guard_passes (n : Int) (extent : Nat) (h1 : 1 ≤ n) (h2 : n ≤ (extent : Int)) :
    to_unsigned n ≤ extent := by
  unfold to_unsigned
  omega

/-- The value `decode_and_resize` leaves in a cell of the target grid. -/
theorem decode_and_resize_cell (colors : Palette) (img : Image) (imgout : Grid)
    (rows cols : Int) (i j : Nat)
    (hR : 1 ≤ rows) (hRH : rows ≤ (img.height : Int))
    (hC : 1 ≤ cols) (hCW : cols ≤ (img.width : Int))
    (hi : (i : Int) < rows) (hj : (j : Int) < cols) :
    resize_loops colors img imgout rows cols i j = cell colors img rows cols i j := by
  rw [resize_loops_apply colors img imgout rows cols (guard_passes rows _ hR hRH)
    (guard_passes cols _ hC hCW)]
  simp only
  rw [if_pos ⟨by omega, by omega⟩]

theorem cell_eq (colors : Palette) (img : Image) (rows cols : Int) (i j : Nat) :
    cell colors img rows cols i j
      = (cell_loop colors img (x1 img.height rows i) (x2 img.height rows i)
          (y1 img.width cols j) (y2 img.width cols j)).1 := rfl

theorem black_strip_length (n : Nat) :
    (black_strip n).data.length = 3 * (black_strip n).width * (black_strip n).height := by
  simp [black_strip]

theorem palette_white_first_cost (k : Fin 256) :
    to_unsigned (color_difference 0 (to_int (palette_white_first k)))
      = if k.val = 0 then 195075 else 194566 := by
  unfold palette_white_first
  split <;> decide

theorem curr_cost_white_first (k : Fin 256) :
    curr_cost palette_white_first (black_strip 22018) 0 1 0 22018 k
      = if k.val = 0 then 194054 else 4283954188 := by
  rw [curr_cost_eq, box_sum_black_strip, palette_white_first_cost]
  split <;> decide

theorem aggregate_cost_white_first (k : Fin 256) :
    aggregate_cost palette_white_first (black_strip 22018) 0 1 0 22018 k
      = if k.val = 0 then 4295161350 else 4283954188 := by
  rw [← box_sum_cast, box_sum_black_strip, palette_white_first_cost]
  split <;> decide

theorem curr_cost_uniform (k : Fin 256) :
    curr_cost (palette_uniform 16715792) (black_strip 65535) 0 1 0 65535 k = 4294967295 := by
  rw [curr_cost_eq, box_sum_black_strip]
  simp only [palette_uniform]
  decide

theorem to_unsigned_natCast (n : Nat) : to_unsigned (n : Int) = n % 4294967296 := by
  unfold to_unsigned
  omega

theorem pixel_index_eq_file_index (width i j k : Nat) :
    pixel_index width (i : Int) (j : Int) k = file_index width i j k := by
  unfold pixel_index file_index
  rw [to_unsigned_natCast, to_unsigned_natCast]
  congr 3
  rw [Nat.add_mod, Nat.mul_mod, Nat.mod_mod, Nat.mod_mod, ← Nat.mul_mod, ← Nat.add_mod,
    Nat.mul_comm]

/-- The resampler and the per-pixel quantiser read the same bytes for a pixel. -/
theorem pixel_eq_file_pixel (img : Image) (i j : Nat) :
    pixel img (i : Int) (j : Int) = file_pixel img i j := by
  unfold pixel file_pixel
  simp only [pixel_index_eq_file_index]

theorem int_range_succ (a : Int) : int_range a (a + 1) = [a] := by
  unfold int_range
  have : (a + 1 - a).toNat = 1 := by omega
  rw [this]
  simp [List.range_succ]

theorem int_range_empty (lo hi : Int) (h : hi ≤ lo) : int_range lo hi = [] := by
  unfold int_range
  have : (hi - lo).toNat = 0 := by omega
  simp [this]

theorem curr_cost_single (colors : Palette) (img : Image) (a b : Int) (k : Fin 256) :
    curr_cost colors img a (a + 1) b (b + 1) k
      = to_unsigned (color_difference (pixel img a b) (to_int (colors k))) := by
  unfold curr_cost
  rw [int_range_succ, int_range_succ]
  simp only [List.foldl_cons, List.foldl_nil, Nat.zero_add]
  have := to_unsigned_color_difference_le (pixel img a b) (to_int (colors k))
  omega

theorem curr_cost_empty (colors : Palette) (img : Image) (xlo xhi ylo yhi : Int) (k : Fin 256)
    (h : xhi ≤ xlo) : curr_cost colors img xlo xhi ylo yhi k = 0 := by
  unfold curr_cost
  rw [int_range_empty xlo xhi h]
  rfl

/-- When every accumulated cost is `n` times the distance to one colour, the loop
of `decode_and_resize` selects what `closest_color` returns for that colour. -/
theorem cell_loop_eq_closest_color (colors : Palette) (img : Image) (xlo xhi ylo yhi : Int)
    (color : Int) (n : Nat) (hn : 1 ≤ n) (hb : n ≤ 22017)
    (hcost : ∀ k : Fin 256, curr_cost colors img xlo xhi ylo yhi k
      = n * to_unsigned (color_difference color (to_int (colors k)))) :
    (cell_loop colors img xlo xhi ylo yhi).1 = closest_color colors color := by
  obtain ⟨i, hieq, himin, hifirst⟩ := closest_color_loop_spec colors color
  have hu : ∀ k : Fin 256,
      ((to_unsigned (color_difference color (to_int (colors k))) : Nat) : Int)
        = color_difference color (to_int (colors k)) :=
    fun k => to_unsigned_color_difference _ _
  rcases cell_loop_spec colors img xlo xhi ylo yhi with ⟨-, hall⟩ | ⟨k, heq, -, hmin, hfirst⟩
  · have h0 := hall 0
    rw [hcost] at h0
    have := to_unsigned_color_difference_le color (to_int (colors 0))
    have : n * to_unsigned (color_difference color (to_int (colors 0))) ≤ 22017 * 195075 :=
      Nat.mul_le_mul hb this
    omega
  · rw [heq]
    unfold closest_color
    rw [hieq]
    simp only
    rcases lt_trichotomy k i with hlt | heq2 | hgt
    · have a1 := hifirst k hlt
      have a2 := hmin i
      rw [hcost, hcost] at a2
      have a3 := Nat.le_of_mul_le_mul_left a2 (by omega)
      have b1 := hu k
      have b2 := hu i
      omega
    · rw [heq2]
    · have a1 := himin k
      have a2 := hfirst i hgt
      rw [hcost, hcost] at a2
      have a3 := Nat.lt_of_mul_lt_mul_left a2
      have b1 := hu k
      have b2 := hu i
      omega

/-- When every accumulated cost is the same value below the initial `cost`, index 0
is selected. -/
theorem cell_loop_const (colors : Palette) (img : Image) (xlo xhi ylo yhi : Int) (c : Nat)
    (hc : c < 4294967295)
    (hcost : ∀ k : Fin 256, curr_cost colors img xlo xhi ylo yhi k = c) :
    (cell_loop colors img xlo xhi ylo yhi).1 = 0 := by
  rcases cell_loop_spec colors img xlo xhi ylo yhi with ⟨-, hall⟩ | ⟨k, heq, -, -, hfirst⟩
  · have h0 := hall 0
    rw [hcost] at h0
    omega
  · rw [heq]
    by_cases hk : k = 0
    · rw [hk]; rfl
    · have := hfirst 0 (Fin.pos_iff_ne_zero.2 hk)
      rw [hcost, hcost] at this
      omega

theorem decode_file_apply (colors : Palette) (img : Image) (i j : Nat)
    (hi : i < img.height) (hj : j < img.width) :
    ∃ rowsl : List (List Int), decode_file colors (some img) = Except.ok rowsl ∧
      rowsl[i]?.bind (fun row => row[j]?)
        = some (closest_color colors (file_pixel img i j)) := by
  refine ⟨_, rfl, ?_⟩
  simp [List.getElem?_map, List.getElem?_range, hi, hj]

/-- With as many cells as source rows (at most 65535) each range is one row. -/
theorem bounds_same_size (extent i : Nat) (he : extent ≤ 65535) (hi : i < extent) :
    to_int ((extent * i % 4294967296) / to_unsigned (extent : Int)) = (i : Int) ∧
    to_int ((extent * (i + 1) % 4294967296) / to_unsigned (extent : Int))
      = (i : Int) + 1 := by
  have hprod : (extent : Int) * (extent : Int) < 4294967296 := by
    have : extent * extent ≤ 65535 * 65535 := Nat.mul_le_mul he he
    have h2 : ((extent * extent : Nat) : Int) ≤ 4294836225 := by exact_mod_cast this
    push_cast at h2
    omega
  have f1 := bound_eq_floor extent (extent : Int) i (by omega) (by omega) (by omega) hprod
    (by omega)
  have f2 := bound_eq_floor extent (extent : Int) (i + 1) (by omega) (by omega) (by omega)
    hprod (by omega)
  rw [Int.toNat_natCast, Nat.mul_div_cancel_left _ (by omega : 0 < extent)] at f1 f2
  exact ⟨f1, by rw [f2]; push_cast; rfl⟩

theorem cell_same_size (colors : Palette) (img : Image) (i j : Nat)
    (hH : img.height ≤ 65535) (hW : img.width ≤ 65535)
    (hi : i < img.height) (hj : j < img.width) :
    cell colors img (img.height : Int) (img.width : Int) i j
      = closest_color colors (pixel img (i : Int) (j : Int)) := by
  obtain ⟨r1, r2⟩ := bounds_same_size img.height i hH hi
  obtain ⟨c1, c2⟩ := bounds_same_size img.width j hW hj
  unfold cell x1 x2 y1 y2
  rw [r1, r2, c1, c2]
  apply cell_loop_eq_closest_color colors img _ _ _ _ _ 1 (by omega) (by omega)
  intro k
  rw [curr_cost_single, Nat.one_mul]

theorem byte_at_replicate (n idx : Nat) (c : Byte) (h : idx < n) :
    byte_at (List.replicate n c) idx = (c.val : Int) := by
  unfold byte_at
  rw [List.getD_eq_getElem?_getD, List.getElem?_replicate, if_pos h]
  rfl

theorem white_column_length (n : Nat) :
    (white_column n).data.length = 3 * (white_column n).width * (white_column n).height := by
  simp [white_column]

theorem pixel_white_column (n : Nat) (a b : Int)
    (h0 : pixel_index 1 a b 0 < 3 * n) (h1 : pixel_index 1 a b 1 < 3 * n)
    (h2 : pixel_index 1 a b 2 < 3 * n) :
    pixel (white_column n) a b = 16777215 := by
  unfold pixel white_column
  simp only
  rw [byte_at_replicate _ _ _ h0, byte_at_replicate _ _ _ h1, byte_at_replicate _ _ _ h2]
  decide

theorem palette_black_first_cost (k : Fin 256) :
    color_difference 16777215 (to_int (palette_black_first k))
      = if k.val = 0 then 195075 else 0 := by
  unfold palette_black_first
  split <;> decide

theorem closest_color_black_first : closest_color palette_black_first 16777215 = 1 := by
  obtain ⟨i, heq, hmin, hfirst⟩ := closest_color_loop_spec palette_black_first 16777215
  unfold closest_color
  rw [heq]
  have h1 := hmin 1
  rw [palette_black_first_cost, palette_black_first_cost] at h1
  by_cases hi0 : i.val = 0
  · rw [if_pos hi0] at h1
    simp at h1
  · by_cases hi1 : i = 1
    · rw [hi1]; rfl
    · have hlt : (1 : Fin 256) < i := by
        apply Fin.lt_def.2
        have : i.val ≠ 1 := fun h => hi1 (Fin.ext h)
        show 1 < i.val
        omega
      have h2 := hfirst 1 hlt
      rw [palette_black_first_cost, palette_black_first_cost, if_neg hi0] at h2
      simp at h2

theorem cell_loop_congr (colors : Palette) (img : Image) (a b c d a2 b2 c2 d2 : Int)
    (h : ∀ k : Fin 256, curr_cost colors img a b c d k = curr_cost colors img a2 b2 c2 d2 k) :
    cell_loop colors img a b c d = cell_loop colors img a2 b2 c2 d2 := by
  unfold cell_loop
  simp only [h]

theorem curr_cost_red_blue_column (colors : Palette) (k : Fin 256) :
    (curr_cost colors red_blue_image 0 2 0 1 k : Int)
        = color_difference 16711680 (to_int (colors k))
          + color_difference 255 (to_int (colors k)) ∧
    curr_cost colors red_blue_image 0 2 1 2 k = curr_cost colors red_blue_image 0 2 0 1 k := by
  have r1 : int_range 0 2 = [0, 1] := by decide
  have r2 : int_range 0 1 = [0] := by decide
  have r3 : int_range 1 2 = [1] := by decide
  have p00 : pixel red_blue_image 0 0 = 16711680 := by decide
  have p01 : pixel red_blue_image 0 1 = 16711680 := by decide
  have p10 : pixel red_blue_image 1 0 = 255 := by decide
  have p11 : pixel red_blue_image 1 1 = 255 := by decide
  have u1 := to_unsigned_color_difference 16711680 (to_int (colors k))
  have u2 := to_unsigned_color_difference 255 (to_int (colors k))
  have l1 := color_difference_le 16711680 (to_int (colors k))
  have l2 := color_difference_le 255 (to_int (colors k))
  unfold curr_cost
  simp only [r1, r2, r3, List.foldl_cons, List.foldl_nil, p00, p01, p10, p11]
  refine ⟨?_, trivial⟩
  push_cast
  omega

theorem curr_cost_red_blue_rows (colors : Palette) (k : Fin 256) :
    curr_cost colors red_blue_image 0 1 0 2 k
        = 2 * to_unsigned (color_difference 16711680 (to_int (colors k))) ∧
    curr_cost colors red_blue_image 1 2 0 2 k
        = 2 * to_unsigned (color_difference 255 (to_int (colors k))) := by
  have r1 : int_range 0 2 = [0, 1] := by decide
  have r2 : int_range 0 1 = [0] := by decide
  have r3 : int_range 1 2 = [1] := by decide
  have p00 : pixel red_blue_image 0 0 = 16711680 := by decide
  have p01 : pixel red_blue_image 0 1 = 16711680 := by decide
  have p10 : pixel red_blue_image 1 0 = 255 := by decide
  have p11 : pixel red_blue_image 1 1 = 255 := by decide
  have l1 := to_unsigned_color_difference_le 16711680 (to_int (colors k))
  have l2 := to_unsigned_color_difference_le 255 (to_int (colors k))
  unfold curr_cost
  simp only [r1, r2, r3, List.foldl_cons, List.foldl_nil, p00, p01, p10, p11]
  constructor <;> omega

theorem palette_red_blue_cost_blue (k : Fin 256) :
    color_difference 255 (to_int (palette_red_blue k))
      = if k.val = 0 then 130050 else if k.val = 1 then 0 else 65025 := by
  unfold palette_red_blue
  split
  · decide
  · split <;> decide

theorem palette_red_blue_cost_red (k : Fin 256) :
    color_difference 16711680 (to_int (palette_red_blue k))
      = if k.val = 0 then 0 else if k.val = 1 then 130050 else 65025 := by
  unfold palette_red_blue
  split
  · decide
  · split <;> decide

theorem closest_color_red_blue_blue : closest_color palette_red_blue 255 = 1 := by
  obtain ⟨i, heq, hmin, hfirst⟩ := closest_color_loop_spec palette_red_blue 255
  unfold closest_color
  rw [heq]
  have h1 := hmin 1
  rw [palette_red_blue_cost_blue, palette_red_blue_cost_blue] at h1
  by_cases hi0 : i.val = 0
  · rw [if_pos hi0] at h1
    simp at h1
  · by_cases hi1 : i.val = 1
    · simp [hi1]
    · rw [if_neg hi0, if_neg hi1] at h1
      simp at h1

theorem to_unsigned_of_lt (n : Int) (h0 : 0 ≤ n) (h1 : n < 4294967296) :
    ((to_unsigned n : Nat) : Int) = n := by
  unfold to_unsigned
  omega

/-- A guard of `decode_and_resize` fails when the target exceeds the source. -/
theorem guard_fails (n : Int) (extent : Nat) (h1 : (extent : Int) < n) (h2 : n < 2147483648) :
    ¬ to_unsigned n ≤ extent := by
  have := to_unsigned_of_lt n (by omega) (by omega)
  omega

theorem resize_loops_unchanged (colors : Palette) (img : Image) (imgout : Grid)
    (rows cols : Int) (hr : rows < 2147483648) (hc : cols < 2147483648)
    (h : (img.height : Int) < rows ∨ (img.width : Int) < cols) :
    resize_loops colors img imgout rows cols = imgout := by
  unfold resize_loops
  rcases h with h | h
  · rw [if_neg (guard_fails rows img.height h hr)]
  · rw [if_neg (guard_fails cols img.width h hc)]
    split <;> rfl

/-- The bounds of a range lie in `[0, extent]`: the lower one is not negative and
the upper one does not exceed the extent, wrap-around or not. -/
theorem bounds_in_extent (extent : Nat) (cells : Int) (i : Nat)
    (hc : 1 ≤ cells) (hce : cells ≤ (extent : Int)) (he : extent < 4294967296)
    (hi : (i : Int) < cells) :
    0 ≤ to_int ((extent * i % 4294967296) / to_unsigned cells) ∧
    to_int ((extent * (i + 1) % 4294967296) / to_unsigned cells) ≤ (extent : Int) := by
  obtain ⟨n, rfl⟩ : ∃ n : Nat, cells = (n : Int) := ⟨cells.toNat, by omega⟩
  have hn : 1 ≤ n := by omega
  have hne : n ≤ extent := by omega
  have hin : i < n := by omega
  have hu : to_unsigned (n : Int) = n := by unfold to_unsigned; omega
  rw [hu]
  constructor
  · unfold to_int
    split
    · omega
    · rename_i hge
      exfalso
      apply hge
      have hq : extent * i % 4294967296 / n < 4294967296 :=
        lt_of_le_of_lt (Nat.div_le_self _ _) (Nat.mod_lt _ (by decide))
      rw [Nat.mod_eq_of_lt hq]
      by_cases h1 : n = 1
      · subst h1
        have : i = 0 := by omega
        subst this
        simp
      · have h2 : 2 ≤ n := by omega
        have hm : extent * i % 4294967296 < 4294967296 := Nat.mod_lt _ (by decide)
        rw [Nat.div_lt_iff_lt_mul (by omega)]
        omega
  · unfold to_int
    split
    · have hq : extent * (i + 1) % 4294967296 / n < 4294967296 :=
        lt_of_le_of_lt (Nat.div_le_self _ _) (Nat.mod_lt _ (by decide))
      rw [Nat.mod_eq_of_lt hq]
      have : extent * (i + 1) % 4294967296 / n ≤ extent := by
        by_cases hp : extent * n < 4294967296
        · have hle : extent * (i + 1) ≤ extent * n := Nat.mul_le_mul_left _ (by omega)
          rw [Nat.mod_eq_of_lt (lt_of_le_of_lt hle hp)]
          apply Nat.div_le_of_le_mul
          rw [Nat.mul_comm n extent]
          exact hle
        · have hm : extent * (i + 1) % 4294967296 < 4294967296 := Nat.mod_lt _ (by decide)
          apply Nat.le_of_lt
          rw [Nat.div_lt_iff_lt_mul (by omega)]
          omega
      exact_mod_cast this
    · omega

/-- For a row and a column inside the image the index computed in `unsigned int`
is below the buffer length `3 * W * H`. -/
theorem pixel_index_lt (width height : Nat) (a b : Int) (k : Nat)
    (ha0 : 0 ≤ a) (ha : a < (height : Int)) (hb0 : 0 ≤ b) (hb : b < (width : Int))
    (hk : k < 3) :
    pixel_index width a b k < 3 * width * height ∧
    3 * (a.toNat * width + b.toNat) + k < 3 * width * height := by
  obtain ⟨x, rfl⟩ : ∃ x : Nat, a = (x : Int) := ⟨a.toNat, by omega⟩
  obtain ⟨y, rfl⟩ : ∃ y : Nat, b = (y : Int) := ⟨b.toNat, by omega⟩
  have hx : x < height := by omega
  have hy : y < width := by omega
  have h1 : x * width + y < width * height := by
    have : (x + 1) * width ≤ height * width := Nat.mul_le_mul_right _ hx
    have e1 : (x + 1) * width = x * width + width := by ring
    have e2 : height * width = width * height := Nat.mul_comm _ _
    omega
  have h2 : 3 * (x * width + y) + k < 3 * width * height := by
    have : 3 * width * height = 3 * (width * height) := by ring
    omega
  refine ⟨?_, by simpa using h2⟩
  unfold pixel_index
  rw [to_unsigned_natCast, to_unsigned_natCast]
  have m1 : (x % 4294967296 * width + y % 4294967296) % 4294967296
      = (x * width + y) % 4294967296 := by
    rw [Nat.add_mod, Nat.mul_mod, Nat.mod_mod, Nat.mod_mod, ← Nat.mul_mod, ← Nat.add_mod]
  rw [m1]
  have m2 := Nat.mod_le (x * width + y) 4294967296
  have m3 := Nat.mod_le (3 * ((x * width + y) % 4294967296) + k) 4294967296
  omega

theorem curr_cost_empty_cols (colors : Palette) (img : Image) (xlo xhi ylo yhi : Int)
    (k : Fin 256) (h : yhi ≤ ylo) : curr_cost colors img xlo xhi ylo yhi k = 0 := by
  unfold curr_cost
  rw [int_range_empty ylo yhi h]
  simp only [List.foldl_nil]
  induction int_range xlo xhi with
  | nil => rfl
  | cons a l ih => simp [ih]

/-- Without wrap-around and with at most as many cells as source rows, each range
holds at least one row. -/
theorem bounds_strict (extent : Nat) (cells : Int) (i : Nat)
    (hc : 1 ≤ cells) (hce : cells ≤ (extent : Int)) (he : extent < 2147483648)
    (hprod : (extent : Int) * cells < 4294967296) (hi : (i : Int) < cells) :
    to_int ((extent * i % 4294967296) / to_unsigned cells)
      < to_int ((extent * (i + 1) % 4294967296) / to_unsigned cells) := by
  rw [bound_eq_floor extent cells i (by omega) hc he hprod (by omega),
    bound_eq_floor extent cells (i + 1) (by omega) hc he hprod (by push_cast; omega)]
  have hn : 0 < cells.toNat := by omega
  have hle : cells.toNat ≤ extent := by omega
  have h1 : extent * i + cells.toNat ≤ extent * (i + 1) := by
    have : extent * (i + 1) = extent * i + extent := by ring
    omega
  have h2 : (extent * i + cells.toNat) / cells.toNat = extent * i / cells.toNat + 1 :=
    Nat.add_div_right _ hn
  have h3 := Nat.div_le_div_right (c := cells.toNat) h1
  exact_mod_cast (by omega : extent * i / cells.toNat < extent * (i + 1) / cells.toNat)

theorem box_total_add (img : Image) (xlo xhi ylo yhi : Int) (f g : Int → Int) :
    box_total img xlo xhi ylo yhi (fun p => f p + g p)
      = box_total img xlo xhi ylo yhi f + box_total img xlo xhi ylo yhi g := by
  unfold box_total
  rw [← List.sum_map_add]
  congr 1
  apply List.map_congr_left
  intro a _
  exact List.sum_map_add

theorem box_total_mul_left (img : Image) (xlo xhi ylo yhi : Int) (f : Int → Int) (c : Int) :
    box_total img xlo xhi ylo yhi (fun p => c * f p)
      = c * box_total img xlo xhi ylo yhi f := by
  unfold box_total
  rw [← List.sum_map_mul_left]
  congr 1
  apply List.map_congr_left
  intro a _
  exact List.sum_map_mul_left _ _ _

theorem box_total_const (img : Image) (xlo xhi ylo yhi : Int) (c : Int) :
    box_total img xlo xhi ylo yhi (fun _ => c) = (box_count xlo xhi ylo yhi : Int) * c := by
  unfold box_total box_count
  simp only [List.map_const', List.sum_replicate, length_int_range, smul_eq_mul]
  push_cast
  ring

/-- Sum of squared differences to `c` of one channel `ch` over a box. -/
theorem box_total_sq_sub (img : Image) (xlo xhi ylo yhi : Int) (ch : Int → Int) (c : Int) :
    box_total img xlo xhi ylo yhi (fun p => (ch p - c) * (ch p - c))
      = box_total img xlo xhi ylo yhi (fun p => ch p * ch p)
        - 2 * c * box_total img xlo xhi ylo yhi ch
        + (box_count xlo xhi ylo yhi : Int) * (c * c) := by
  have e : (fun p => (ch p - c) * (ch p - c))
      = (fun p => (ch p * ch p + (-(2 * c)) * ch p) + c * c) := by
    funext p
    ring
  rw [e, box_total_add img xlo xhi ylo yhi (fun p => ch p * ch p + (-(2 * c)) * ch p)
      (fun _ => c * c),
    box_total_add img xlo xhi ylo yhi (fun p => ch p * ch p) (fun p => (-(2 * c)) * ch p),
    box_total_mul_left, box_total_const]
  ring

/-- The aggregate cost and the distance to the channel sums differ by a term that
does not depend on the palette entry. -/
theorem aggregate_cost_eq (colors : Palette) (img : Image) (xlo xhi ylo yhi : Int)
    (k : Fin 256) :
    (box_count xlo xhi ylo yhi : Int) * aggregate_cost colors img xlo xhi ylo yhi k
      = sum_distance colors img xlo xhi ylo yhi k
        + ((box_count xlo xhi ylo yhi : Int)
            * (box_total img xlo xhi ylo yhi (fun p => red p * red p)
              + box_total img xlo xhi ylo yhi (fun p => green p * green p)
              + box_total img xlo xhi ylo yhi (fun p => blue p * blue p))
          - (box_total img xlo xhi ylo yhi red ^ 2 + box_total img xlo xhi ylo yhi green ^ 2
              + box_total img xlo xhi ylo yhi blue ^ 2)) := by
  have hagg : aggregate_cost colors img xlo xhi ylo yhi k
      = box_total img xlo xhi ylo yhi (fun p =>
          ((blue p - blue (to_int (colors k))) * (blue p - blue (to_int (colors k)))
            + (green p - green (to_int (colors k))) * (green p - green (to_int (colors k))))
          + (red p - red (to_int (colors k))) * (red p - red (to_int (colors k)))) := rfl
  rw [hagg, box_total_add, box_total_add, box_total_sq_sub, box_total_sq_sub,
    box_total_sq_sub]
  unfold sum_distance
  ring

theorem box_total_black_strip (n : Nat) (xlo xhi ylo yhi : Int) (f : Int → Int) :
    box_total (black_strip n) xlo xhi ylo yhi f = (box_count xlo xhi ylo yhi : Int) * f 0 := by
  have e : box_total (black_strip n) xlo xhi ylo yhi f
      = box_total (black_strip n) xlo xhi ylo yhi (fun _ => f 0) := by
    unfold box_total
    simp only [pixel_black_strip]
  rw [e, box_total_const]

theorem sum_distance_white_first (k : Fin 256) :
    sum_distance palette_white_first (black_strip 22018) 0 1 0 22018 k
      = if k.val = 0 then 94570862604300 else 94324103311384 := by
  unfold sum_distance
  rw [box_total_black_strip, box_total_black_strip, box_total_black_strip]
  unfold palette_white_first
  split <;> decide

theorem cell_loop_white_first :
    (cell_loop palette_white_first (black_strip 22018) 0 1 0 22018).1 = 0 := by
  rcases cell_loop_spec palette_white_first (black_strip 22018) 0 1 0 22018 with
    ⟨-, hall⟩ | ⟨k, heq, -, hmin, -⟩
  · have h0 := hall 0
    rw [curr_cost_white_first] at h0
    simp at h0
  · rw [heq]
    have h0 := hmin 0
    rw [curr_cost_white_first, curr_cost_white_first] at h0
    by_cases hk : k.val = 0
    · simp [hk]
    · simp [hk] at h0

/-- For a non-empty box the distance to the mean is the distance to the channel
sums divided by the square of the number of pixels. -/
theorem mean_distance_eq (colors : Palette) (img : Image) (xlo xhi ylo yhi : Int)
    (k : Fin 256) (hn : 1 ≤ box_count xlo xhi ylo yhi) :
    mean_distance colors img xlo xhi ylo yhi k
      = (sum_distance colors img xlo xhi ylo yhi k : Rat)
          / ((box_count xlo xhi ylo yhi : Rat) ^ 2) := by
  have hpos : (box_count xlo xhi ylo yhi : Rat) ≠ 0 := by
    have : (0 : Rat) < (box_count xlo xhi ylo yhi : Rat) := by exact_mod_cast hn
    exact ne_of_gt this
  unfold mean_distance sum_distance
  push_cast
  field_simp

/-- In a non-empty box of at most 22017 pixels the selected index is the lowest one
at minimal distance from the channel sums. -/
theorem cell_loop_nearest_sum (colors : Palette) (img : Image) (xlo xhi ylo yhi : Int)
    (hn : 1 ≤ box_count xlo xhi ylo yhi) (hb : box_count xlo xhi ylo yhi ≤ 22017) :
    ∃ k : Fin 256,
      (cell_loop colors img xlo xhi ylo yhi).1 = (k.val : Int) ∧
      (∀ m : Fin 256, sum_distance colors img xlo xhi ylo yhi k
          ≤ sum_distance colors img xlo xhi ylo yhi m) ∧
      (∀ m : Fin 256, m < k → sum_distance colors img xlo xhi ylo yhi k
          < sum_distance colors img xlo xhi ylo yhi m) := by
  obtain ⟨k, hk, hmin, hfirst⟩ := cell_loop_small colors img xlo xhi ylo yhi hb
  have hpos : (0 : Int) < (box_count xlo xhi ylo yhi : Int) := by exact_mod_cast hn
  refine ⟨k, hk, ?_, ?_⟩
  · intro m
    have e1 := aggregate_cost_eq colors img xlo xhi ylo yhi k
    have e2 := aggregate_cost_eq colors img xlo xhi ylo yhi m
    have := mul_le_mul_of_nonneg_left (hmin m) (le_of_lt hpos)
    linarith
  · intro m hm
    have e1 := aggregate_cost_eq colors img xlo xhi ylo yhi k
    have e2 := aggregate_cost_eq colors img xlo xhi ylo yhi m
    have := mul_lt_mul_of_pos_left (hfirst m hm) hpos
    linarith

theorem foldl_append_init (l : List String) (init : String) :
    l.foldl (fun r s => r ++ s) init = init ++ String.join l := by
  induction l generalizing init with
  | nil => simp [String.join]
  | cons x l ih =>
    unfold String.join
    simp only [List.foldl_cons]
    rw [ih (init ++ x), ih ("" ++ x), String.empty_append, String.append_assoc]

theorem join_cons (x : String) (l : List String) :
    String.join (x :: l) = x ++ String.join l := by
  have h := foldl_append_init (x :: l) ""
  rw [String.empty_append] at h
  have h2 := foldl_append_init l ("" ++ x)
  rw [String.empty_append] at h2
  rw [← h, ← h2]
  rfl

theorem foldl_append_eq_join {β : Type} (f : β → String) (l : List β) (init : String) :
    l.foldl (fun out x => out ++ f x) init = init ++ String.join (l.map f) := by
  induction l generalizing init with
  | nil => simp [String.join]
  | cons x l ih =>
    simp only [List.foldl_cons, List.map_cons]
    rw [ih, join_cons, String.append_assoc]

/-- The loops of `display` write, row after row, a newline and the cells of the
row. -/
theorem display_eq (rows cols : Int) (g : Grid) :
    display rows cols g = expected_output glyph_literal rows.toNat cols.toNat g := by
  unfold display expected_output
  have inner : ∀ (out : String) (i : Nat),
      (List.range cols.toNat).foldl (fun out j => out ++ display_cell (g i j)) (out ++ "\n")
        = out ++ ("\n" ++ String.join ((List.range cols.toNat).map (fun j =>
            "\x1b[38;5;" ++ toString (g i j) ++ "m" ++ glyph_literal))) := by
    intro out i
    rw [foldl_append_eq_join (fun j => display_cell (g i j)), String.append_assoc]
    simp only [display_cell, String.append_assoc]
  simp only [inner]
  rw [foldl_append_eq_join, String.empty_append]

theorem hex_digit_range (c : Char) (h : (hex_digit c).isSome) :
    (48 ≤ c.toNat ∧ c.toNat ≤ 57) ∨ (97 ≤ c.toNat ∧ c.toNat ≤ 102)
      ∨ (65 ≤ c.toNat ∧ c.toNat ≤ 70) := by
  unfold hex_digit at h
  split at h
  · left; assumption
  · split at h
    · right; left; assumption
    · split at h
      · right; right; assumption
      · simp at h

theorem hex_digit_lt (c : Char) : (hex_digit c).getD 0 < 16 := by
  unfold hex_digit
  split
  · simp; omega
  · split
    · simp; omega
    · split
      · simp; omega
      · simp

theorem hex_digit_ne (c : Char) (h : (hex_digit c).isSome) :
    is_space c = false ∧ c ≠ '-' ∧ c ≠ '+' ∧ c ≠ 'x' ∧ c ≠ 'X' ∧ c ≠ NUL := by
  have hr := hex_digit_range c h
  have e1 : ('-' : Char).toNat = 45 := rfl
  have e2 : ('+' : Char).toNat = 43 := rfl
  have e3 : ('x' : Char).toNat = 120 := rfl
  have e4 : ('X' : Char).toNat = 88 := rfl
  have e5 : NUL.toNat = 0 := rfl
  refine ⟨?_, ?_, ?_, ?_, ?_, ?_⟩
  · unfold is_space
    simp only [Bool.or_eq_false_iff, Bool.and_eq_false_imp, decide_eq_false_iff_not,
      decide_eq_true_eq]
    omega
  all_goals
    intro hc
    rw [hc] at hr
    omega

theorem after_colon_cons (c : Char) (t : List Char) :
    after_colon (c :: t) = if c = ':' then some t else after_colon t := rfl

theorem c_string_cons (c : Char) (t : List Char) :
    c_string (c :: t) = if c = NUL then some [] else (c_string t).map (fun s => c :: s) := rfl

theorem after_colon_append (l t r : List Char) (h : after_colon l = some t) :
    after_colon (l ++ r) = some (t ++ r) := by
  induction l with
  | nil => simp [after_colon] at h
  | cons c l ih =>
    rw [List.cons_append, after_colon_cons]
    rw [after_colon_cons] at h
    by_cases hc : c = ':'
    · rw [if_pos hc] at h ⊢
      injection h with h
      rw [h]
    · rw [if_neg hc] at h ⊢
      exact ih h

theorem after_colon_of_mem (l : List Char) (h : ':' ∈ l) : ∃ t, after_colon l = some t := by
  induction l with
  | nil => simp at h
  | cons c l ih =>
    rw [after_colon_cons]
    by_cases hc : c = ':'
    · exact ⟨l, by rw [if_pos hc]⟩
    · rw [if_neg hc]
      rcases List.mem_cons.1 h with h | h
      · exact absurd h.symm hc
      · exact ih h

theorem after_colon_label (label t : List Char) (h : ':' ∉ label) :
    after_colon (label ++ ':' :: t) = some t := by
  induction label with
  | nil => rw [List.nil_append, after_colon_cons, if_pos rfl]
  | cons c l ih =>
    have hc : c ≠ ':' := fun e => h (by rw [e]; exact List.mem_cons_self _ _)
    rw [List.cons_append, after_colon_cons, if_neg hc]
    exact ih (fun hm => h (List.mem_cons_of_mem _ hm))

theorem c_string_append (t r : List Char) :
    c_string (t ++ NUL :: r) = c_string (t ++ [NUL]) := by
  induction t with
  | nil => rw [List.nil_append, List.nil_append, c_string_cons, c_string_cons, if_pos rfl,
      if_pos rfl]
  | cons c t ih =>
    rw [List.cons_append, List.cons_append, c_string_cons, c_string_cons, ih]

theorem c_string_some (t : List Char) : ∃ s, c_string (t ++ [NUL]) = some s := by
  induction t with
  | nil => exact ⟨[], by rw [List.nil_append, c_string_cons, if_pos rfl]⟩
  | cons c t ih =>
    obtain ⟨s, hs⟩ := ih
    rw [List.cons_append, c_string_cons, hs]
    by_cases hc : c = NUL
    · exact ⟨[], by rw [if_pos hc]⟩
    · exact ⟨c :: s, by rw [if_neg hc]; rfl⟩

theorem c_string_no_nul (t : List Char) (h : NUL ∉ t) : c_string (t ++ [NUL]) = some t := by
  induction t with
  | nil => rw [List.nil_append, c_string_cons, if_pos rfl]
  | cons c t ih =>
    have hc : c ≠ NUL := fun e => h (by rw [e]; exact List.mem_cons_self _ _)
    rw [List.cons_append, c_string_cons, if_neg hc,
      ih (fun hm => h (List.mem_cons_of_mem _ hm))]
    rfl

/-- `std::stoi` throws one of its two exceptions; it never reads past the string. -/
theorem stoi_base16_error (s : List Char) (e : LoadError)
    (h : stoi_base16 s = Except.error e) :
    e = LoadError.invalid_argument ∨ e = LoadError.out_of_range := by
  unfold stoi_base16 at h
  simp only at h
  split_ifs at h
  all_goals
    injection h with h
    first | exact Or.inl h.symm | exact Or.inr h.symm

theorem store_line (buf l : List Char) :
    store buf (l ++ [NUL]) = l ++ NUL :: buf.drop (l.length + 1) := by
  unfold store
  simp

/-- One iteration on a line of at most 14 characters that holds a colon: the result
depends on the value text of the line only. -/
theorem load_step_readable (r : Reader) (p : Palette) (i : Fin 256) (l : List Char)
    (ls : List (List Char)) (hf : r.failed = false) (hr : r.rest = l :: ls)
    (hlen : l.length ≤ 14) (hcolon : ':' ∈ l) :
    load_step (r, p) i
      = (stoi_base16 (line_text l)).map (fun v =>
          ((⟨store r.line (l ++ [NUL]), false, ls⟩ : Reader),
            Function.update p i (to_unsigned v))) := by
  have hg : getline r = ⟨store r.line (l ++ [NUL]), false, ls⟩ := by
    unfold getline
    rw [hf, hr]
    simp [hlen]
  obtain ⟨t, ht⟩ := after_colon_of_mem l hcolon
  obtain ⟨s, hs⟩ := c_string_some t
  have htext : line_text l = s := by
    unfold line_text
    rw [ht]
    simp [hs]
  have hscan : after_colon (store r.line (l ++ [NUL]))
      = some (t ++ NUL :: r.line.drop (l.length + 1)) := by
    rw [store_line]
    exact after_colon_append l t _ ht
  unfold load_step
  simp only [hg, hscan, c_string_append, hs, htext]
  cases stoi_base16 s <;> rfl

theorem digits_value_concat (ds : List Char) (c : Char) :
    digits_value (ds ++ [c]) = 16 * digits_value ds + (hex_digit c).getD 0 := by
  unfold digits_value
  rw [List.foldl_append]
  rfl

theorem digits_value_eq_hex_value (ds : List Char) : digits_value ds = hex_value ds := by
  induction ds using List.reverseRecOn with
  | nil => rfl
  | append_singleton ds c ih =>
    rw [digits_value_concat, ih]
    unfold hex_value
    simp [Nat.ofDigits_cons]
    ring

theorem hex_value_lt (ds : List Char) : hex_value ds < 16 ^ ds.length := by
  unfold hex_value
  have h := Nat.ofDigits_lt_base_pow_length (b := 16)
    (l := ds.reverse.map (fun c => (hex_digit c).getD 0)) (by decide) (by
      intro x hx
      simp only [List.mem_map] at hx
      obtain ⟨c, -, rfl⟩ := hx
      exact hex_digit_lt c)
  simpa using h

/-- `std::stoi` on one to seven hexadecimal digits returns their base-16 value. -/
theorem stoi_base16_digits (ds : List Char) (hne : ds ≠ [])
    (hlen : ds.length ≤ 7) (hhex : ∀ c ∈ ds, (hex_digit c).isSome) :
    stoi_base16 ds = Except.ok (hex_value ds : Int) := by
  obtain ⟨c0, t, rfl⟩ : ∃ c0 t, ds = c0 :: t := by
    cases ds with
    | nil => exact absurd rfl hne
    | cons c t => exact ⟨c, t, rfl⟩
  have h0 := hex_digit_ne c0 (hhex c0 (List.mem_cons_self _ _))
  have hsp : (c0 :: t).dropWhile is_space = c0 :: t := by
    rw [List.dropWhile_cons, h0.1]
    rfl
  have hsign : drop_sign (c0 :: t) = c0 :: t := by
    unfold drop_sign
    simp [h0.2.1, h0.2.2.1]
  have h0x : drop_0x (c0 :: t) = c0 :: t := by
    cases t with
    | nil => rfl
    | cons c1 t1 =>
      cases t1 with
      | nil => rfl
      | cons c2 t2 =>
        have h1 := hex_digit_ne c1 (hhex c1 (by simp))
        unfold drop_0x
        simp [h1.2.2.2.1, h1.2.2.2.2.1]
  have htake : (c0 :: t).takeWhile (fun c => (hex_digit c).isSome) = c0 :: t := by
    rw [List.takeWhile_eq_self_iff]
    intro c hc
    exact hhex c hc
  have hhead : (c0 :: t).head? ≠ some '-' := by
    simp only [List.head?_cons, ne_eq, Option.some.injEq]
    exact h0.2.1
  have hval := hex_value_lt (c0 :: t)
  have hpow : 16 ^ (c0 :: t).length ≤ 16 ^ 7 := Nat.pow_le_pow_right (by decide) hlen
  have hv : ((hex_value (c0 :: t) : Nat) : Int) < 268435457 := by
    have : hex_value (c0 :: t) < 268435457 := by
      have e : (16 : Nat) ^ 7 = 268435456 := by decide
      omega
    exact_mod_cast this
  unfold stoi_base16
  simp only [hsp, hsign, h0x, htake, if_neg hhead, digits_value_eq_hex_value]
  rw [if_neg (by simp), if_neg (by omega)]

/-- A value text that, after white space and an optional sign, does not start with
a hexadecimal digit makes `std::stoi` throw `std::invalid_argument`. -/
theorem stoi_base16_no_digit (s : List Char)
    (h : (drop_sign (s.dropWhile is_space)).head?.bind hex_digit = none) :
    stoi_base16 s = Except.error LoadError.invalid_argument := by
  have hds : (drop_0x (drop_sign (s.dropWhile is_space))).takeWhile
      (fun c => (hex_digit c).isSome) = [] := by
    generalize drop_sign (s.dropWhile is_space) = u at h
    cases u with
    | nil => rfl
    | cons c0 t =>
      simp only [List.head?_cons, Option.some_bind] at h
      have hc0 : c0 ≠ '0' := by
        intro e
        rw [e] at h
        exact absurd h (by decide)
      have h0x : drop_0x (c0 :: t) = c0 :: t := by
        cases t with
        | nil => rfl
        | cons c1 t1 =>
          cases t1 with
          | nil => rfl
          | cons c2 t2 =>
            unfold drop_0x
            simp [hc0]
      rw [h0x, List.takeWhile_cons]
      simp [h]
  unfold stoi_base16
  simp only [hds]
  rfl

theorem load_loop_cons (i : Fin 256) (rest : List (Fin 256)) (st : Reader × Palette) :
    load_loop (i :: rest) st
      = match load_step st i with
        | Except.error e => Except.error e
        | Except.ok st2 => load_loop rest st2 := rfl

/-- The loop succeeds on lines of at most 14 characters that hold a colon and whose
value text converts: every visited slot receives the converted value. -/
theorem load_loop_ok (target : Fin 256 → Nat) :
    ∀ (idxs : List (Fin 256)) (ls : List (List Char)) (r : Reader) (p : Palette),
      r.failed = false → r.rest = ls → idxs.Nodup →
      (∀ (t : Nat) (ht : t < idxs.length), ∃ (l : List Char) (v : Int),
        ls[t]? = some l ∧ l.length ≤ 14 ∧ ':' ∈ l ∧
        stoi_base16 (line_text l) = Except.ok v ∧
        to_unsigned v = target (idxs.get ⟨t, ht⟩)) →
      ∃ st : Reader × Palette, load_loop idxs (r, p) = Except.ok st ∧
        (∀ i ∈ idxs, st.2 i = target i) ∧ (∀ i, i ∉ idxs → st.2 i = p i) := by
  intro idxs
  induction idxs with
  | nil =>
    intro ls r p _ _ _ _
    exact ⟨(r, p), rfl, by simp, fun i _ => rfl⟩
  | cons i rest ih =>
    intro ls r p hf hr hnd hall
    obtain ⟨l, v, hl, hlen, hcolon, hstoi, hval⟩ := hall 0 (by simp)
    obtain ⟨ls2, hls⟩ : ∃ ls2, ls = l :: ls2 := by
      cases ls with
      | nil => simp at hl
      | cons a b => simp at hl; exact ⟨b, by rw [hl]⟩
    have hstep := load_step_readable r p i l ls2 hf (by rw [hr, hls]) hlen hcolon
    rw [hstoi] at hstep
    have hnd2 := List.nodup_cons.1 hnd
    obtain ⟨st, hst, hin, hout⟩ := ih ls2 ⟨store r.line (l ++ [NUL]), false, ls2⟩
      (Function.update p i (to_unsigned v)) rfl rfl hnd2.2 (by
        intro t ht
        obtain ⟨l2, v2, a, b, c, d, e⟩ := hall (t + 1) (by simp; omega)
        refine ⟨l2, v2, ?_, b, c, d, ?_⟩
        · rw [hls] at a; simpa using a
        · simpa using e)
    refine ⟨st, ?_, ?_, ?_⟩
    · rw [load_loop_cons, hstep]
      exact hst
    · intro j hj
      rcases List.mem_cons.1 hj with hj | hj
      · subst hj
        rw [hout j hnd2.1, Function.update_same, hval]
        rfl
      · exact hin j hj
    · intro j hj
      have h1 : j ≠ i := fun e => hj (by rw [e]; exact List.mem_cons_self _ _)
      have h2 : j ∉ rest := fun e => hj (List.mem_cons_of_mem _ e)
      rw [hout j h2, Function.update_noteq h1]

/-- The loop fails with an exception of `std::stoi` when the value text of some line
does not convert and the lines up to it have at most 14 characters and a colon. -/
theorem load_loop_error :
    ∀ (idxs : List (Fin 256)) (ls : List (List Char)) (r : Reader) (p : Palette) (k : Nat),
      r.failed = false → r.rest = ls → k < idxs.length →
      (∀ t, t ≤ k → ∃ l : List Char, ls[t]? = some l ∧ l.length ≤ 14 ∧ ':' ∈ l) →
      (∃ (l : List Char) (e : LoadError), ls[k]? = some l ∧
        stoi_base16 (line_text l) = Except.error e) →
      ∃ e : LoadError, load_loop idxs (r, p) = Except.error e ∧
        (e = LoadError.invalid_argument ∨ e = LoadError.out_of_range) := by
  intro idxs
  induction idxs with
  | nil =>
    intro ls r p k _ _ hk
    simp at hk
  | cons i rest ih =>
    intro ls r p k hf hr hk hread hbad
    obtain ⟨l, hl, hlen, hcolon⟩ := hread 0 (Nat.zero_le _)
    obtain ⟨ls2, hls⟩ : ∃ ls2, ls = l :: ls2 := by
      cases ls with
      | nil => simp at hl
      | cons a b => simp at hl; exact ⟨b, by rw [hl]⟩
    have hstep := load_step_readable r p i l ls2 hf (by rw [hr, hls]) hlen hcolon
    cases hs : stoi_base16 (line_text l) with
    | error e =>
      rw [hs] at hstep
      refine ⟨e, ?_, stoi_base16_error _ e hs⟩
      rw [load_loop_cons, hstep]
      rfl
    | ok v =>
      rw [hs] at hstep
      rw [load_loop_cons, hstep]
      cases k with
      | zero =>
        obtain ⟨l2, e, a, b⟩ := hbad
        rw [hl] at a
        injection a with a
        rw [← a, hs] at b
        cases b
      | succ k =>
        apply ih ls2 _ _ k rfl rfl (by simpa using hk)
        · intro t ht
          obtain ⟨l2, a, b, c⟩ := hread (t + 1) (by omega)
          exact ⟨l2, by rw [hls] at a; simpa using a, b, c⟩
        · obtain ⟨l2, e, a, b⟩ := hbad
          exact ⟨l2, e, by rw [hls] at a; simpa using a, b⟩

theorem load_colors_of_loop_ok (line0 : List Char) (lines : List (List Char))
    (st : Reader × Palette)
    (h : load_loop (List.finRange 256) (⟨line0, false, lines⟩, fun _ => 0) = Except.ok st) :
    load_colors line0 (some lines) = Except.ok st.2 := by
  unfold load_colors
  simp only [Option.isNone_some, Option.getD_some]
  rw [h]

theorem load_colors_of_loop_error (line0 : List Char) (lines : List (List Char))
    (e : LoadError)
    (h : load_loop (List.finRange 256) (⟨line0, false, lines⟩, fun _ => 0) = Except.error e) :
    load_colors line0 (some lines) = Except.error e := by
  unfold load_colors
  simp only [Option.isNone_some, Option.getD_some]
  rw [h]

theorem toOption_map_eq_some {ε α β : Type} (x : Except ε α) (f : α → β) (b : β)
    (h : x.toOption.map f = some b) : ∃ a, x = Except.ok a ∧ f a = b := by
  cases x with
  | error e => simp [Except.toOption] at h
  | ok a => exact ⟨a, rfl, by simpa [Except.toOption] using h⟩

set_option maxRecDepth 1000000 in
theorem load_partial_hex :
    (load_colors (List.replicate 15 NUL) (some (palette_file "0:12zz".toList))).toOption.map
      (fun p => p 0) = some 18 := by
  decide

set_option maxRecDepth 1000000 in
theorem load_stale_colon :
    (load_colors (List.replicate 15 NUL) (some stale_file)).toOption.map
      (fun p => p 1) = some 16777215 := by
  decide

set_option maxRecDepth 1000000 in
theorem load_long_label :
    (load_colors (List.replicate 15 NUL)
      (some (palette_file "color000:ff0000".toList))).toOption.map
      (fun p => p 0) = some 1044480 := by
  decide

theorem main_of_load_error (argc : Nat) (line0 : List Char) (file : Option (List (List Char)))
    (rows cols : Int) (grid0 : Grid) (decoded : Option Image) (e : LoadError)
    (hargc : argc ≠ 1) (h : load_colors line0 file = Except.error e) :
    main argc line0 file rows cols grid0 decoded = Except.error (MainError.load e) := by
  unfold main
  rw [if_neg hargc, h]

theorem finRange_get (n t : Nat) (ht : t < (List.finRange n).length) :
    ((List.finRange n).get ⟨t, ht⟩).val = t := by
  rw [List.get_finRange]

theorem palette_file_zero (first : List Char) : (palette_file first)[0]? = some first := by
  unfold palette_file
  rw [List.getElem?_cons_zero]

theorem palette_file_succ (first : List Char) (n : Nat) (h : n < 255) :
    (palette_file first)[n + 1]? = some "0:000000".toList := by
  unfold palette_file
  rw [List.getElem?_cons_succ, List.getElem?_replicate, if_pos h]

theorem stale_file_one : stale_file[1]? = some "abc".toList := by
  unfold stale_file
  rw [List.getElem?_cons_succ, List.getElem?_cons_zero]

theorem mem_nat_range (lo hi a : Nat) : a ∈ nat_range lo hi ↔ lo ≤ a ∧ a < hi := by
  simp only [nat_range, List.mem_map, List.mem_range]
  constructor
  · rintro ⟨k, hk, rfl⟩
    omega
  · rintro ⟨h1, h2⟩
    exact ⟨a - lo, by omega, by omega⟩

theorem int_range_natCast (lo hi : Nat) :
    int_range (lo : Int) (hi : Int) = (nat_range lo hi).map (fun (n : Nat) => (n : Int)) := by
  unfold int_range nat_range
  rw [List.map_map]
  have e : ((hi : Int) - (lo : Int)).toNat = hi - lo := by omega
  rw [e]
  apply List.map_congr_left
  intro k _
  simp

/-- When the whole buffer lies below `2^32` the 32-bit position of a byte of pixel
`(a, b)` is its exact position. -/
theorem pixel_index_exact (width height a b k : Nat)
    (ha : a < height) (hb : b < width) (hk : k < 3)
    (hbuf : 3 * width * height ≤ 4294967296) :
    pixel_index width (a : Int) (b : Int) k = 3 * (a * width + b) + k := by
  have h := (pixel_index_lt width height (a : Int) (b : Int) k (by omega) (by omega)
    (by omega) (by omega) hk).2
  simp only [Int.toNat_ofNat] at h
  have hw : 1 ≤ width := by omega
  have hh : 1 ≤ height := by omega
  have h1 : 3 * (a * width + b) + k < 4294967296 := by omega
  unfold pixel_index
  rw [to_unsigned_natCast, to_unsigned_natCast]
  have ha2 : a ≤ a * width := Nat.le_mul_of_pos_right a hw
  rw [Nat.mod_eq_of_lt (by omega : a < 4294967296),
    Nat.mod_eq_of_lt (by omega : b < 4294967296),
    Nat.mod_eq_of_lt (by omega : a * width + b < 4294967296), Nat.mod_eq_of_lt h1]

/-- When the whole buffer lies below `2^32` the resampler reads source pixel
`(a, b)` at row `a`, column `b`. -/
theorem pixel_eq_source_pixel (img : Image) (a b : Nat)
    (ha : a < img.height) (hb : b < img.width)
    (hbuf : 3 * img.width * img.height ≤ 4294967296) :
    pixel img (a : Int) (b : Int) = source_pixel img a b := by
  unfold pixel source_pixel
  rw [pixel_index_exact img.width img.height a b 0 ha hb (by omega) hbuf,
    pixel_index_exact img.width img.height a b 1 ha hb (by omega) hbuf,
    pixel_index_exact img.width img.height a b 2 ha hb (by omega) hbuf]
  rfl

theorem box_total_eq_source_total (img : Image) (rlo rhi clo chi : Nat) (f : Int → Int)
    (hr : rhi ≤ img.height) (hc : chi ≤ img.width)
    (hbuf : 3 * img.width * img.height ≤ 4294967296) :
    box_total img (rlo : Int) (rhi : Int) (clo : Int) (chi : Int) f
      = source_total img rlo rhi clo chi f := by
  unfold box_total source_total
  rw [int_range_natCast, int_range_natCast, List.map_map]
  congr 1
  apply List.map_congr_left
  intro a ha
  have ha2 := (mem_nat_range _ _ _).1 ha
  simp only [Function.comp_apply]
  rw [List.map_map]
  congr 1
  apply List.map_congr_left
  intro b hb
  have hb2 := (mem_nat_range _ _ _).1 hb
  simp only [Function.comp_apply]
  rw [pixel_eq_source_pixel img a b (by omega) (by omega) hbuf]

theorem aggregate_cost_eq_source_cost (colors : Palette) (img : Image) (rlo rhi clo chi : Nat)
    (k : Fin 256) (hr : rhi ≤ img.height) (hc : chi ≤ img.width)
    (hbuf : 3 * img.width * img.height ≤ 4294967296) :
    aggregate_cost colors img (rlo : Int) (rhi : Int) (clo : Int) (chi : Int) k
      = source_cost colors img rlo rhi clo chi k :=
  box_total_eq_source_total img rlo rhi clo chi
    (fun p => color_difference p (to_int (colors k))) hr hc hbuf

theorem box_count_natCast (rlo rhi clo chi : Nat) :
    box_count (rlo : Int) (rhi : Int) (clo : Int) (chi : Int) = source_count rlo rhi clo chi := by
  unfold box_count source_count
  congr 1 <;> omega

theorem sum_distance_eq_source (colors : Palette) (img : Image) (rlo rhi clo chi : Nat)
    (k : Fin 256) (hr : rhi ≤ img.height) (hc : chi ≤ img.width)
    (hbuf : 3 * img.width * img.height ≤ 4294967296) :
    sum_distance colors img (rlo : Int) (rhi : Int) (clo : Int) (chi : Int) k
      = source_sum_distance colors img rlo rhi clo chi k := by
  unfold sum_distance source_sum_distance
  rw [box_total_eq_source_total img _ _ _ _ red hr hc hbuf,
    box_total_eq_source_total img _ _ _ _ green hr hc hbuf,
    box_total_eq_source_total img _ _ _ _ blue hr hc hbuf, box_count_natCast]

theorem mean_distance_eq_source (colors : Palette) (img : Image) (rlo rhi clo chi : Nat)
    (k : Fin 256) (hr : rhi ≤ img.height) (hc : chi ≤ img.width)
    (hbuf : 3 * img.width * img.height ≤ 4294967296) :
    mean_distance colors img (rlo : Int) (rhi : Int) (clo : Int) (chi : Int) k
      = source_mean_distance colors img rlo rhi clo chi k := by
  unfold mean_distance source_mean_distance
  rw [box_total_eq_source_total img _ _ _ _ red hr hc hbuf,
    box_total_eq_source_total img _ _ _ _ green hr hc hbuf,
    box_total_eq_source_total img _ _ _ _ blue hr hc hbuf, box_count_natCast]

/-- Without wrap-around the bounds the code computes for grid row `i` are the exact
floors, the box is not empty and it ends inside the image. -/
theorem bounds_exact (extent cells i : Nat)
    (hc : 1 ≤ cells) (hce : cells ≤ extent) (he : extent < 2147483648)
    (hprod : extent * cells < 4294967296) (hi : i < cells) :
    to_int ((extent * i % 4294967296) / to_unsigned (cells : Int))
      = ((box_lo extent cells i : Nat) : Int) ∧
    to_int ((extent * (i + 1) % 4294967296) / to_unsigned (cells : Int))
      = ((box_hi extent cells i : Nat) : Int) ∧
    box_lo extent cells i < box_hi extent cells i ∧
    box_hi extent cells i ≤ extent := by
  have hp : (extent : Int) * (cells : Int) < 4294967296 := by exact_mod_cast hprod
  have e1 := bound_eq_floor extent (cells : Int) i (by omega) (by omega) he hp (by omega)
  have e2 := bound_eq_floor extent (cells : Int) (i + 1) (by omega) (by omega) he hp
    (by push_cast; omega)
  have hs := bounds_strict extent (cells : Int) i (by omega) (by omega) he hp (by omega)
  rw [e1, e2] at hs
  simp only [Int.toNat_ofNat] at e1 e2 hs
  refine ⟨e1, e2, by exact_mod_cast hs, ?_⟩
  unfold box_hi
  apply Nat.div_le_of_le_mul
  rw [Nat.mul_comm cells extent]
  exact Nat.mul_le_mul_left _ hi

/-- Without wrap-around of the bounds the value of cell `(i, j)` is the index the
loop selects over the exact box: rows `[floor(H*i/R), floor(H*(i+1)/R))`, columns
`[floor(W*j/C), floor(W*(j+1)/C))`; the box is not empty and lies inside the
image. -/
theorem cell_exact (colors : Palette) (img : Image) (imgout : Grid) (R C i j : Nat)
    (hR : 1 ≤ R) (hRH : R ≤ img.height) (hC : 1 ≤ C) (hCW : C ≤ img.width)
    (hi : i < R) (hj : j < C)
    (hbuf : 3 * img.width * img.height ≤ 4294967296)
    (hrow : img.height * R < 4294967296) (hcol : img.width * C < 4294967296) :
    resize_loops colors img imgout (R : Int) (C : Int) i j
      = (cell_loop colors img ((box_lo img.height R i : Nat) : Int)
          ((box_hi img.height R i : Nat) : Int) ((box_lo img.width C j : Nat) : Int)
          ((box_hi img.width C j : Nat) : Int)).1 ∧
    (box_lo img.height R i < box_hi img.height R i ∧ box_hi img.height R i ≤ img.height) ∧
    (box_lo img.width C j < box_hi img.width C j ∧ box_hi img.width C j ≤ img.width) := by
  have hw : img.width ≤ img.width * img.height :=
    Nat.le_mul_of_pos_right _ (by omega)
  have hh : img.height ≤ img.width * img.height :=
    Nat.le_mul_of_pos_left _ (by omega)
  have e3 : 3 * img.width * img.height = 3 * (img.width * img.height) := Nat.mul_assoc _ _ _
  obtain ⟨r1, r2, r3, r4⟩ := bounds_exact img.height R i hR hRH (by omega) hrow hi
  obtain ⟨c1, c2, c3, c4⟩ := bounds_exact img.width C j hC hCW (by omega) hcol hj
  refine ⟨?_, ⟨r3, r4⟩, ⟨c3, c4⟩⟩
  rw [decode_and_resize_cell colors img imgout (R : Int) (C : Int) i j (by omega) (by omega)
    (by omega) (by omega) (by omega) (by omega), cell_eq]
  unfold x1 x2 y1 y2
  rw [r1, r2, c1, c2]

theorem two_tone_image_length :
    (two_tone_image 505032704).data.length
      = 3 * (two_tone_image 505032704).width * (two_tone_image 505032704).height := by
  show (List.replicate 4294967296 (0 : Byte) ++ List.replicate 505032704 255).length
    = 3 * 40000 * 40000
  rw [List.length_append, List.length_replicate, List.length_replicate]

theorem byte_at_two_tone_low (tail idx : Nat) (h : idx < 4294967296) :
    byte_at (two_tone_image tail).data idx = 0 := by
  show byte_at (List.replicate 4294967296 (0 : Byte) ++ List.replicate tail 255) idx = 0
  unfold byte_at
  rw [List.getD_eq_getElem?_getD,
    List.getElem?_append_left (by rw [List.length_replicate]; exact h),
    List.getElem?_replicate, if_pos h]
  rfl

theorem byte_at_two_tone_high (tail idx : Nat) (h1 : 4294967296 ≤ idx)
    (h2 : idx < 4294967296 + tail) :
    byte_at (two_tone_image tail).data idx = 255 := by
  show byte_at (List.replicate 4294967296 (0 : Byte) ++ List.replicate tail 255) idx = 255
  unfold byte_at
  rw [List.getD_eq_getElem?_getD,
    List.getElem?_append_right (by rw [List.length_replicate]; exact h1),
    List.length_replicate, List.getElem?_replicate, if_pos (by omega)]
  rfl

/-- The resampler reads pixel `(35792, 0)` of the two-tone image at bytes 72704 to
72706, which are black. -/
theorem pixel_two_tone (tail : Nat) : pixel (two_tone_image tail) 35792 0 = 0 := by
  have e0 : pixel_index 40000 35792 0 0 = 72704 := by decide
  have e1 : pixel_index 40000 35792 0 1 = 72705 := by decide
  have e2 : pixel_index 40000 35792 0 2 = 72706 := by decide
  show combine_rgb (byte_at (two_tone_image tail).data (pixel_index 40000 35792 0 0))
    (byte_at (two_tone_image tail).data (pixel_index 40000 35792 0 1))
    (byte_at (two_tone_image tail).data (pixel_index 40000 35792 0 2)) = 0
  rw [e0, e1, e2, byte_at_two_tone_low _ _ (by decide), byte_at_two_tone_low _ _ (by decide),
    byte_at_two_tone_low _ _ (by decide)]
  decide

/-- Source pixel `(35792, 0)` of the two-tone image lies at bytes 4295040000 to
4295040002, which are white. -/
theorem source_pixel_two_tone :
    source_pixel (two_tone_image 505032704) 35792 0 = 16777215 := by
  show combine_rgb (byte_at (two_tone_image 505032704).data (3 * (35792 * 40000 + 0)))
    (byte_at (two_tone_image 505032704).data (3 * (35792 * 40000 + 0) + 1))
    (byte_at (two_tone_image 505032704).data (3 * (35792 * 40000 + 0) + 2)) = 16777215
  rw [byte_at_two_tone_high _ _ (by decide) (by decide),
    byte_at_two_tone_high _ _ (by decide) (by decide),
    byte_at_two_tone_high _ _ (by decide) (by decide)]
  decide

theorem palette_black_first_cost_black (k : Fin 256) :
    color_difference 0 (to_int (palette_black_first k))
      = if k.val = 0 then 0 else 195075 := by
  unfold palette_black_first
  split <;> decide

theorem closest_color_black_first_black : closest_color palette_black_first 0 = 0 := by
  obtain ⟨i, heq, -, hfirst⟩ := closest_color_loop_spec palette_black_first 0
  unfold closest_color
  rw [heq]
  by_cases hi0 : i = 0
  · rw [hi0]; rfl
  · have h := hfirst 0 (Fin.pos_iff_ne_zero.2 hi0)
    have hn := color_difference_nonneg 0 (to_int (palette_black_first i))
    rw [palette_black_first_cost_black 0] at h
    simp at h
    omega

/-- Resizing the two-tone image to its own size writes index 0, black, to cell
`(35792, 0)`. -/
theorem two_tone_cell :
    ∃ g : Grid,
      decode_and_resize palette_black_first (some (two_tone_image 505032704)) (fun _ _ => -1)
        40000 40000 = Except.ok g ∧
      g 35792 0 = 0 := by
  refine ⟨_, rfl, ?_⟩
  have hcell := decode_and_resize_cell palette_black_first (two_tone_image 505032704)
    (fun _ _ => -1) 40000 40000 35792 0 (by decide) (by decide) (by decide) (by decide)
    (by decide) (by decide)
  have hsame := cell_same_size palette_black_first (two_tone_image 505032704) 35792 0
    (by decide) (by decide) (by decide) (by decide)
  have hp : pixel (two_tone_image 505032704) ((35792 : Nat) : Int) ((0 : Nat) : Int) = 0 :=
    pixel_two_tone 505032704
  rw [hp, closest_color_black_first_black] at hsame
  exact hcell.trans hsame

/-- Resizing the all-white column of 65536 rows to its own size writes index 0,
black, to cell `(65535, 0)`: `height * 65536` wraps around to 0 and the box is
empty. -/
theorem white_column_cell :
    ∃ g : Grid,
      decode_and_resize palette_black_first (some (white_column 65536)) (fun _ _ => -1)
        65536 1 = Except.ok g ∧
      g 65535 0 = 0 := by
  have e1 : x1 (white_column 65536).height 65536 65535 = 65535 := by decide
  have e2 : x2 (white_column 65536).height 65536 65535 = 0 := by decide
  refine ⟨_, rfl, ?_⟩
  have hcell := decode_and_resize_cell palette_black_first (white_column 65536)
    (fun _ _ => -1) 65536 1 65535 0 (by decide) (by decide) (by decide) (by decide)
    (by decide) (by decide)
  refine hcell.trans ?_
  rw [cell_eq, e1, e2]
  exact cell_loop_const _ _ _ _ _ _ 0 (by decide)
    (fun k => curr_cost_empty _ _ _ _ _ _ k (by decide))

theorem source_pixel_white_column (n a : Nat) (h : a < n) :
    source_pixel (white_column n) a 0 = 16777215 := by
  show combine_rgb (byte_at (List.replicate (3 * n) 255) (3 * (a * 1 + 0)))
    (byte_at (List.replicate (3 * n) 255) (3 * (a * 1 + 0) + 1))
    (byte_at (List.replicate (3 * n) 255) (3 * (a * 1 + 0) + 2)) = 16777215
  rw [byte_at_replicate _ _ _ (by omega), byte_at_replicate _ _ _ (by omega),
    byte_at_replicate _ _ _ (by omega)]
  decide

theorem nat_range_succ (a : Nat) : nat_range a (a + 1) = [a] := by
  unfold nat_range
  rw [Nat.add_sub_cancel_left]
  rfl

theorem source_total_single (img : Image) (a b : Nat) (f : Int → Int) :
    source_total img a (a + 1) b (b + 1) f = f (source_pixel img a b) := by
  unfold source_total
  rw [nat_range_succ, nat_range_succ]
  simp

theorem source_cost_single (colors : Palette) (img : Image) (a b : Nat) (k : Fin 256) :
    source_cost colors img a (a + 1) b (b + 1) k
      = color_difference (source_pixel img a b) (to_int (colors k)) :=
  source_total_single img a b (fun p => color_difference p (to_int (colors k)))

theorem source_cost_white_first (k : Fin 256) :
    source_cost palette_white_first (black_strip 22018) 0 1 0 22018 k
      = if k.val = 0 then 4295161350 else 4283954188 := by
  rw [← aggregate_cost_eq_source_cost _ _ _ _ _ _ _ (by decide) (by decide) (by decide)]
  exact aggregate_cost_white_first k

theorem source_sum_distance_white_first (k : Fin 256) :
    source_sum_distance palette_white_first (black_strip 22018) 0 1 0 22018 k
      = if k.val = 0 then 94570862604300 else 94324103311384 := by
  rw [← sum_distance_eq_source _ _ _ _ _ _ _ (by decide) (by decide) (by decide)]
  exact sum_distance_white_first k

theorem source_sum_distance_single (colors : Palette) (img : Image) (a b : Nat) (k : Fin 256) :
    source_sum_distance colors img a (a + 1) b (b + 1) k
      = color_difference (source_pixel img a b) (to_int (colors k)) := by
  unfold source_sum_distance source_count
  rw [source_total_single, source_total_single, source_total_single]
  unfold color_difference red green blue
  simp only [Nat.add_sub_cancel_left]
  push_cast
  ring

/-! ## The claims -/

/-- C1. For every colour and every 256-entry palette, `closest_color` returns an
index `i` in `[0,255]` whose palette entry is at least as close to the colour as
every other entry; the loop never ends with its initial `best = -1` or
`distance = 1000000`. -/
theorem closest_color_minimises (colors : Palette) (color : Int) :
    ∃ i : Fin 256,
      closest_color colors color = (i.val : Int) ∧
      0 ≤ closest_color colors color ∧ closest_color colors color ≤ 255 ∧
      (∀ k : Fin 256, color_difference color (to_int (colors i))
          ≤ color_difference color (to_int (colors k))) ∧
      closest_color colors color ≠ -1 ∧
      (closest_color_loop colors color).2 = color_difference color (to_int (colors i)) ∧
      (closest_color_loop colors color).2 ≠ 1000000 := by
  obtain ⟨i, heq, hmin, -⟩ := closest_color_loop_spec colors color
  have hi := i.isLt
  have hle := color_difference_le color (to_int (colors i))
  refine ⟨i, ?_, ?_, ?_, hmin, ?_, ?_, ?_⟩ <;> simp only [closest_color, heq] <;> omega

/-- C2 (amended). For `1 ≤ R ≤ H`, `1 ≤ C ≤ W`, `3*W*H ≤ 2^32`, `H*R < 2^32`,
`W*C < 2^32` and a cell `(i, j)` whose box, rows `[floor(H*i/R), floor(H*(i+1)/R))`
and columns `[floor(W*j/C), floor(W*(j+1)/C))`, holds at most 22017 source pixels,
the index written to the cell is in `[0,255]`, minimises the aggregate cost over the
source pixels of the box, and is the lowest index that does. -/
theorem decode_and_resize_minimises (colors : Palette) (img : Image) (imgout : Grid)
    (R C i j : Nat)
    (hR : 1 ≤ R) (hRH : R ≤ img.height) (hC : 1 ≤ C) (hCW : C ≤ img.width)
    (hi : i < R) (hj : j < C)
    (hbuf : 3 * img.width * img.height ≤ 4294967296)
    (hrow : img.height * R < 4294967296) (hcol : img.width * C < 4294967296)
    (hbox : (box_hi img.height R i - box_lo img.height R i)
              * (box_hi img.width C j - box_lo img.width C j) ≤ 22017) :
    ∃ g : Grid,
      decode_and_resize colors (some img) imgout (R : Int) (C : Int) = Except.ok g ∧
      ∃ k : Fin 256, g i j = (k.val : Int) ∧
        (∀ m : Fin 256,
          source_cost colors img (box_lo img.height R i) (box_hi img.height R i)
              (box_lo img.width C j) (box_hi img.width C j) k
            ≤ source_cost colors img (box_lo img.height R i) (box_hi img.height R i)
              (box_lo img.width C j) (box_hi img.width C j) m) ∧
        (∀ m : Fin 256, m < k →
          source_cost colors img (box_lo img.height R i) (box_hi img.height R i)
              (box_lo img.width C j) (box_hi img.width C j) k
            < source_cost colors img (box_lo img.height R i) (box_hi img.height R i)
              (box_lo img.width C j) (box_hi img.width C j) m) := by
  refine ⟨_, rfl, ?_⟩
  obtain ⟨hcell, ⟨-, hr⟩, ⟨-, hc⟩⟩ :=
    cell_exact colors img imgout R C i j hR hRH hC hCW hi hj hbuf hrow hcol
  have hb : (((box_hi img.height R i : Nat) : Int) - ((box_lo img.height R i : Nat) : Int)).toNat
      * (((box_hi img.width C j : Nat) : Int) - ((box_lo img.width C j : Nat) : Int)).toNat
      ≤ 22017 := by
    have e1 : (((box_hi img.height R i : Nat) : Int)
        - ((box_lo img.height R i : Nat) : Int)).toNat
        = box_hi img.height R i - box_lo img.height R i := by omega
    have e2 : (((box_hi img.width C j : Nat) : Int)
        - ((box_lo img.width C j : Nat) : Int)).toNat
        = box_hi img.width C j - box_lo img.width C j := by omega
    rw [e1, e2]
    exact hbox
  obtain ⟨k, hk, hmin, hfirst⟩ := cell_loop_small colors img _ _ _ _ hb
  refine ⟨k, hcell.trans hk, ?_, ?_⟩
  · intro m
    rw [← aggregate_cost_eq_source_cost colors img _ _ _ _ k hr hc hbuf,
      ← aggregate_cost_eq_source_cost colors img _ _ _ _ m hr hc hbuf]
    exact hmin m
  · intro m hm
    rw [← aggregate_cost_eq_source_cost colors img _ _ _ _ k hr hc hbuf,
      ← aggregate_cost_eq_source_cost colors img _ _ _ _ m hr hc hbuf]
    exact hfirst m hm

/-- Witness for C2: the cell `(0,0)` of the 1x2 grid over the red and blue image. -/
theorem decode_and_resize_minimises_witness :
    (3 * red_blue_image.width * red_blue_image.height ≤ 4294967296 ∧
      red_blue_image.height * 1 < 4294967296 ∧ red_blue_image.width * 2 < 4294967296 ∧
      (box_hi red_blue_image.height 1 0 - box_lo red_blue_image.height 1 0)
        * (box_hi red_blue_image.width 2 0 - box_lo red_blue_image.width 2 0) ≤ 22017) ∧
    ∃ g : Grid,
      decode_and_resize palette_red_blue (some red_blue_image) (fun _ _ => -1)
        ((1 : Nat) : Int) ((2 : Nat) : Int) = Except.ok g ∧
      ∃ k : Fin 256, g 0 0 = (k.val : Int) ∧
        (∀ m : Fin 256,
          source_cost palette_red_blue red_blue_image
              (box_lo red_blue_image.height 1 0) (box_hi red_blue_image.height 1 0)
              (box_lo red_blue_image.width 2 0) (box_hi red_blue_image.width 2 0) k
            ≤ source_cost palette_red_blue red_blue_image
              (box_lo red_blue_image.height 1 0) (box_hi red_blue_image.height 1 0)
              (box_lo red_blue_image.width 2 0) (box_hi red_blue_image.width 2 0) m) ∧
        (∀ m : Fin 256, m < k →
          source_cost palette_red_blue red_blue_image
              (box_lo red_blue_image.height 1 0) (box_hi red_blue_image.height 1 0)
              (box_lo red_blue_image.width 2 0) (box_hi red_blue_image.width 2 0) k
            < source_cost palette_red_blue red_blue_image
              (box_lo red_blue_image.height 1 0) (box_hi red_blue_image.height 1 0)
              (box_lo red_blue_image.width 2 0) (box_hi red_blue_image.width 2 0) m) :=
  ⟨by decide,
    decode_and_resize_minimises palette_red_blue red_blue_image (fun _ _ => -1) 1 2 0 0
      (by decide) (by decide) (by decide) (by decide) (by decide) (by decide) (by decide)
      (by decide) (by decide) (by decide)⟩


/-- Counterexamples to C2 as stated, one for each 32-bit wrap-around. (1) On an
all-black 22018x1 image resized to a 1x1 grid, with white at palette index 0 and
`0xFFFFFE` elsewhere, the accumulator of index 0 wraps around to 194054, so index 0
is written although index 1 has the strictly smaller aggregate cost. (2) On the
40000x40000 two-tone image resized to 40000x40000, with black at palette index 0
and white elsewhere, the byte position of pixel `(35792, 0)` wraps around from
4295040000 to 72704: the code reads a black pixel and writes index 0, although the
source pixel of the box is white and index 1 has the strictly smaller aggregate
cost. (3) On the all-white image of 65536 rows and one column resized to 65536x1,
`height * 65536` wraps around to 0: the code sums over no pixel in cell `(65535, 0)`
and writes index 0, although index 1 has the strictly smaller aggregate cost over
the box. -/
theorem decode_and_resize_not_minimal :
    ((black_strip 22018).data.length
        = 3 * (black_strip 22018).width * (black_strip 22018).height ∧
      ∃ g : Grid,
        decode_and_resize palette_white_first (some (black_strip 22018)) (fun _ _ => -1) 1 1
          = Except.ok g ∧
        g 0 0 = 0 ∧
        source_cost palette_white_first (black_strip 22018)
            (box_lo (black_strip 22018).height 1 0) (box_hi (black_strip 22018).height 1 0)
            (box_lo (black_strip 22018).width 1 0) (box_hi (black_strip 22018).width 1 0) 1
          < source_cost palette_white_first (black_strip 22018)
            (box_lo (black_strip 22018).height 1 0) (box_hi (black_strip 22018).height 1 0)
            (box_lo (black_strip 22018).width 1 0) (box_hi (black_strip 22018).width 1 0) 0) ∧
    ((two_tone_image 505032704).data.length
        = 3 * (two_tone_image 505032704).width * (two_tone_image 505032704).height ∧
      ∃ g : Grid,
        decode_and_resize palette_black_first (some (two_tone_image 505032704))
          (fun _ _ => -1) 40000 40000 = Except.ok g ∧
        g 35792 0 = 0 ∧
        source_cost palette_black_first (two_tone_image 505032704)
            (box_lo (two_tone_image 505032704).height 40000 35792)
            (box_hi (two_tone_image 505032704).height 40000 35792)
            (box_lo (two_tone_image 505032704).width 40000 0)
            (box_hi (two_tone_image 505032704).width 40000 0) 1
          < source_cost palette_black_first (two_tone_image 505032704)
            (box_lo (two_tone_image 505032704).height 40000 35792)
            (box_hi (two_tone_image 505032704).height 40000 35792)
            (box_lo (two_tone_image 505032704).width 40000 0)
            (box_hi (two_tone_image 505032704).width 40000 0) 0) ∧
    ((white_column 65536).data.length
        = 3 * (white_column 65536).width * (white_column 65536).height ∧
      ∃ g : Grid,
        decode_and_resize palette_black_first (some (white_column 65536)) (fun _ _ => -1)
          65536 1 = Except.ok g ∧
        g 65535 0 = 0 ∧
        source_cost palette_black_first (white_column 65536)
            (box_lo (white_column 65536).height 65536 65535)
            (box_hi (white_column 65536).height 65536 65535)
            (box_lo (white_column 65536).width 1 0) (box_hi (white_column 65536).width 1 0) 1
          < source_cost palette_black_first (white_column 65536)
            (box_lo (white_column 65536).height 65536 65535)
            (box_hi (white_column 65536).height 65536 65535)
            (box_lo (white_column 65536).width 1 0)
            (box_hi (white_column 65536).width 1 0) 0) := by
  refine ⟨⟨black_strip_length 22018, _, rfl, ?_, ?_⟩, ⟨two_tone_image_length, ?_⟩,
    ⟨white_column_length 65536, ?_⟩⟩
  · have e1 : x1 (black_strip 22018).height 1 0 = 0 := by decide
    have e2 : x2 (black_strip 22018).height 1 0 = 1 := by decide
    have e3 : y1 (black_strip 22018).width 1 0 = 0 := by decide
    have e4 : y2 (black_strip 22018).width 1 0 = 22018 := by decide
    rw [decode_and_resize_cell _ _ _ _ _ _ _ (by decide) (by decide) (by decide) (by decide)
      (by decide) (by decide)]
    rw [cell_eq, e1, e2, e3, e4]
    exact cell_loop_white_first
  · have b1 : box_lo (black_strip 22018).height 1 0 = 0 := by decide
    have b2 : box_hi (black_strip 22018).height 1 0 = 1 := by decide
    have b3 : box_lo (black_strip 22018).width 1 0 = 0 := by decide
    have b4 : box_hi (black_strip 22018).width 1 0 = 22018 := by decide
    rw [b1, b2, b3, b4, source_cost_white_first, source_cost_white_first]
    decide
  · obtain ⟨g, hg, hcell⟩ := two_tone_cell
    have b1 : box_lo (two_tone_image 505032704).height 40000 35792 = 35792 := by decide
    have b2 : box_hi (two_tone_image 505032704).height 40000 35792 = 35792 + 1 := by decide
    have b3 : box_lo (two_tone_image 505032704).width 40000 0 = 0 := by decide
    have b4 : box_hi (two_tone_image 505032704).width 40000 0 = 0 + 1 := by decide
    refine ⟨g, hg, hcell, ?_⟩
    rw [b1, b2, b3, b4, source_cost_single, source_cost_single, source_pixel_two_tone,
      palette_black_first_cost, palette_black_first_cost]
    decide
  · obtain ⟨g, hg, hcell⟩ := white_column_cell
    have b1 : box_lo (white_column 65536).height 65536 65535 = 65535 := by decide
    have b2 : box_hi (white_column 65536).height 65536 65535 = 65535 + 1 := by decide
    have b3 : box_lo (white_column 65536).width 1 0 = 0 := by decide
    have b4 : box_hi (white_column 65536).width 1 0 = 0 + 1 := by decide
    refine ⟨g, hg, hcell, ?_⟩
    rw [b1, b2, b3, b4, source_cost_single, source_cost_single,
      source_pixel_white_column 65536 65535 (by decide),
      palette_black_first_cost, palette_black_first_cost]
    decide

/-- C3 (amended). For `1 ≤ R ≤ H` and `1 ≤ C ≤ W` every cell of the target grid is
written with the value computed for it, whatever `imgout` held before; the value
is in `[-1,255]`, and it is in `[0,255]` when the box of the cell holds at most
22017 source pixels. -/
theorem decode_and_resize_fills_grid (colors : Palette) (img : Image) (imgout : Grid)
    (rows cols : Int)
    (hR : 1 ≤ rows) (hRH : rows ≤ (img.height : Int))
    (hC : 1 ≤ cols) (hCW : cols ≤ (img.width : Int)) :
    ∃ g : Grid, decode_and_resize colors (some img) imgout rows cols = Except.ok g ∧
      ∀ i j : Nat, (i : Int) < rows → (j : Int) < cols →
        g i j = cell colors img rows cols i j ∧
        -1 ≤ g i j ∧ g i j ≤ 255 ∧
        ((x2 img.height rows i - x1 img.height rows i).toNat
            * (y2 img.width cols j - y1 img.width cols j).toNat ≤ 22017 →
          0 ≤ g i j) := by
  refine ⟨_, rfl, ?_⟩
  intro i j hi hj
  rw [decode_and_resize_cell colors img imgout rows cols i j hR hRH hC hCW hi hj]
  refine ⟨rfl, ?_, ?_, ?_⟩
  · unfold cell
    rcases cell_loop_spec colors img (x1 img.height rows i) (x2 img.height rows i)
      (y1 img.width cols j) (y2 img.width cols j) with ⟨heq, -⟩ | ⟨k, heq, -⟩
    · rw [heq]
    · rw [heq]; simp only; omega
  · unfold cell
    rcases cell_loop_spec colors img (x1 img.height rows i) (x2 img.height rows i)
      (y1 img.width cols j) (y2 img.width cols j) with ⟨heq, -⟩ | ⟨k, heq, -⟩
    · rw [heq]; decide
    · rw [heq]; have := k.isLt; simp only; omega
  · intro hbox
    obtain ⟨k, hk, -⟩ := cell_loop_small colors img _ _ _ _ hbox
    unfold cell
    rw [hk]
    omega

/-- Witness for C3: the 1x2 grid over the red and blue image. -/
theorem decode_and_resize_fills_grid_witness :
    ∃ g : Grid,
      decode_and_resize palette_red_blue (some red_blue_image) (fun _ _ => -1) 1 2
        = Except.ok g ∧
      ∀ i j : Nat, (i : Int) < 1 → (j : Int) < 2 →
        g i j = cell palette_red_blue red_blue_image 1 2 i j ∧
        -1 ≤ g i j ∧ g i j ≤ 255 ∧
        ((x2 red_blue_image.height 1 i - x1 red_blue_image.height 1 i).toNat
            * (y2 red_blue_image.width 2 j - y1 red_blue_image.width 2 j).toNat ≤ 22017 →
          0 ≤ g i j) :=
  decode_and_resize_fills_grid palette_red_blue red_blue_image (fun _ _ => -1) 1 2
    (by decide) (by decide) (by decide) (by decide)

/-- Counterexample to C3 as stated. On an all-black 65535x1 image resized to a 1x1
grid, with every palette entry `0xFF1010` (at distance 65537 from black), every
accumulated cost is `65535 * 65537 = 2^32 - 1`, the initial `cost`; no index is
strictly cheaper and the cell receives the initial `closest = -1`. -/
theorem decode_and_resize_writes_minus_one :
    (black_strip 65535).data.length
        = 3 * (black_strip 65535).width * (black_strip 65535).height ∧
    ∃ g : Grid,
      decode_and_resize (palette_uniform 16715792) (some (black_strip 65535))
          (fun _ _ => 0) 1 1 = Except.ok g ∧
      g 0 0 = -1 := by
  have e1 : x1 (black_strip 65535).height 1 0 = 0 := by decide
  have e2 : x2 (black_strip 65535).height 1 0 = 1 := by decide
  have e3 : y1 (black_strip 65535).width 1 0 = 0 := by decide
  have e4 : y2 (black_strip 65535).width 1 0 = 65535 := by decide
  refine ⟨black_strip_length 65535, _, rfl, ?_⟩
  rw [decode_and_resize_cell _ _ _ _ _ _ _ (by decide) (by decide) (by decide) (by decide)
    (by decide) (by decide)]
  rw [cell_eq, e1, e2, e3, e4]
  rcases cell_loop_spec (palette_uniform 16715792) (black_strip 65535) 0 1 0 65535 with
    ⟨heq, -⟩ | ⟨k, -, hlt, -⟩
  · rw [heq]
  · rw [curr_cost_uniform] at hlt
    omega

/-- C4 (amended). When the products `H * R` and `W * C` fit in 32 bits and `H`, `W`
fit in an `int`, the row ranges start at 0, end at `H`, are consecutive and
non-decreasing, equal the floors of `H * i / R`, and every source row lies in
exactly one of them; likewise for the column ranges. -/
theorem box_partition (height width : Nat) (rows cols : Int)
    (hH : 1 ≤ height) (hR : 1 ≤ rows) (hW : 1 ≤ width) (hC : 1 ≤ cols)
    (hH31 : height < 2147483648) (hW31 : width < 2147483648)
    (hHR : (height : Int) * rows < 4294967296) (hWC : (width : Int) * cols < 4294967296) :
    (x1 height rows 0 = 0 ∧ x2 height rows (rows.toNat - 1) = (height : Int) ∧
      (∀ i : Nat, (i : Int) < rows →
        x1 height rows i = ((height * i / rows.toNat : Nat) : Int) ∧
        x2 height rows i = ((height * (i + 1) / rows.toNat : Nat) : Int) ∧
        x2 height rows i = x1 height rows (i + 1) ∧
        x1 height rows i ≤ x2 height rows i) ∧
      (∀ a : Nat, a < height →
        ∃! i : Nat, (i : Int) < rows ∧ x1 height rows i ≤ (a : Int) ∧
          (a : Int) < x2 height rows i)) ∧
    (y1 width cols 0 = 0 ∧ y2 width cols (cols.toNat - 1) = (width : Int) ∧
      (∀ j : Nat, (j : Int) < cols →
        y1 width cols j = ((width * j / cols.toNat : Nat) : Int) ∧
        y2 width cols j = ((width * (j + 1) / cols.toNat : Nat) : Int) ∧
        y2 width cols j = y1 width cols (j + 1) ∧
        y1 width cols j ≤ y2 width cols j) ∧
      (∀ b : Nat, b < width →
        ∃! j : Nat, (j : Int) < cols ∧ y1 width cols j ≤ (b : Int) ∧
          (b : Int) < y2 width cols j)) := by
  have main : ∀ (extent : Nat) (cells : Int), 1 ≤ extent → 1 ≤ cells →
      extent < 2147483648 → (extent : Int) * cells < 4294967296 →
      (to_int ((extent * 0 % 4294967296) / to_unsigned cells) = 0 ∧
       to_int ((extent * (cells.toNat - 1 + 1) % 4294967296) / to_unsigned cells)
          = (extent : Int) ∧
       (∀ i : Nat, (i : Int) < cells →
          to_int ((extent * i % 4294967296) / to_unsigned cells)
            = ((extent * i / cells.toNat : Nat) : Int) ∧
          to_int ((extent * (i + 1) % 4294967296) / to_unsigned cells)
            = ((extent * (i + 1) / cells.toNat : Nat) : Int) ∧
          to_int ((extent * i % 4294967296) / to_unsigned cells)
            ≤ to_int ((extent * (i + 1) % 4294967296) / to_unsigned cells)) ∧
       (∀ a : Nat, a < extent →
          ∃! i : Nat, (i : Int) < cells ∧
            to_int ((extent * i % 4294967296) / to_unsigned cells) ≤ (a : Int) ∧
            (a : Int) < to_int ((extent * (i + 1) % 4294967296) / to_unsigned cells))) := by
    intro extent cells h1 hc he hprod
    have hfl : ∀ i : Nat, (i : Int) ≤ cells →
        to_int ((extent * i % 4294967296) / to_unsigned cells)
          = ((extent * i / cells.toNat : Nat) : Int) :=
      fun i hi => bound_eq_floor extent cells i h1 hc he hprod hi
    have hpos : 1 ≤ cells.toNat := by omega
    refine ⟨?_, ?_, ?_, ?_⟩
    · rw [hfl 0 (by omega)]; simp
    · rw [hfl _ (by omega)]
      have : cells.toNat - 1 + 1 = cells.toNat := by omega
      rw [this, Nat.mul_div_cancel _ (by omega)]
    · intro i hi
      refine ⟨hfl i (by omega), ?_, ?_⟩
      · have := hfl (i + 1) (by omega)
        simpa using this
      · rw [hfl i (by omega)]
        have := hfl (i + 1) (by omega)
        rw [this]
        exact_mod_cast Nat.div_le_div_right (Nat.mul_le_mul_left _ (Nat.le_succ i))
    · intro a ha
      obtain ⟨i, ⟨hi, h2, h3⟩, huniq⟩ := floor_partition extent cells.toNat hpos a ha
      refine ⟨i, ⟨by omega, ?_, ?_⟩, ?_⟩
      · rw [hfl i (by omega)]; exact_mod_cast h2
      · have := hfl (i + 1) (by omega)
        rw [this]; exact_mod_cast h3
      · rintro j ⟨hj, hj2, hj3⟩
        apply huniq
        rw [hfl j (by omega)] at hj2
        have := hfl (j + 1) (by omega)
        rw [this] at hj3
        exact ⟨by omega, by exact_mod_cast hj2, by exact_mod_cast hj3⟩
  obtain ⟨r1, r2, r3, r4⟩ := main height rows hH hR hH31 hHR
  obtain ⟨c1, c2, c3, c4⟩ := main width cols hW hC hW31 hWC
  refine ⟨⟨r1, r2, ?_, r4⟩, ⟨c1, c2, ?_, c4⟩⟩
  · intro i hi
    obtain ⟨a, b, c⟩ := r3 i hi
    exact ⟨a, b, rfl, c⟩
  · intro j hj
    obtain ⟨a, b, c⟩ := c3 j hj
    exact ⟨a, b, rfl, c⟩

/-- Witness for C4: 7 source rows on 4 grid rows, 5 source columns on 2 grid
columns. -/
theorem box_partition_witness :
    ((1 : Nat) ≤ 7 ∧ (1 : Int) ≤ 4 ∧ (1 : Nat) ≤ 5 ∧ (1 : Int) ≤ 2 ∧
      ((7 : Nat) : Int) * 4 < 4294967296 ∧ ((5 : Nat) : Int) * 2 < 4294967296) ∧
    (x1 7 4 0 = 0 ∧ x2 7 4 (Int.toNat 4 - 1) = ((7 : Nat) : Int) ∧
      ∀ a : Nat, a < 7 →
        ∃! i : Nat, (i : Int) < 4 ∧ x1 7 4 i ≤ (a : Int) ∧ (a : Int) < x2 7 4 i) ∧
    (y1 5 2 0 = 0 ∧ y2 5 2 (Int.toNat 2 - 1) = ((5 : Nat) : Int)) :=
  have h := box_partition 7 5 4 2 (by decide) (by decide) (by decide) (by decide)
    (by decide) (by decide) (by decide) (by decide)
  ⟨by decide, ⟨h.1.1, h.1.2.1, h.1.2.2.2⟩, ⟨h.2.1, h.2.2.1⟩⟩

/-- Counterexample to C4 as stated. For `H = R = 65536` the product
`height * (i+1)` of the last row, `65536 * 65536 = 2^32`, wraps around to 0 in
`unsigned int`, so the last range ends at 0 and not at `H`. -/
theorem box_partition_wraps :
    ((1 : Nat) ≤ 65536 ∧ (1 : Int) ≤ 65536) ∧
    x2 65536 65536 (Int.toNat 65536 - 1) = 0 ∧
    ¬ (x2 65536 65536 (Int.toNat 65536 - 1) = ((65536 : Nat) : Int)) := by
  decide

/-- C5 (amended). For an image of at most 65535 rows and 65535 columns, resizing to
as many rows and columns as the image has writes the grid `decode_file` produces:
each cell `(i, j)` equals the entry `decode_file` stores at `[i][j]`. When moreover
`3*W*H ≤ 2^32`, each cell `(i, j)` is exactly `closest_color` of the source pixel
`(i, j)`. -/
theorem resize_same_size_eq_decode_file (colors : Palette) (img : Image) (imgout : Grid)
    (hH : img.height ≤ 65535) (hW : img.width ≤ 65535) :
    ∃ (g : Grid) (rowsl : List (List Int)),
      decode_and_resize colors (some img) imgout (img.height : Int) (img.width : Int)
        = Except.ok g ∧
      decode_file colors (some img) = Except.ok rowsl ∧
      (∀ i j : Nat, i < img.height → j < img.width →
        rowsl[i]?.bind (fun row => row[j]?) = some (g i j)) ∧
      (3 * img.width * img.height ≤ 4294967296 →
        ∀ i j : Nat, i < img.height → j < img.width →
          g i j = closest_color colors (source_pixel img i j)) := by
  have hcell : ∀ i j : Nat, i < img.height → j < img.width →
      resize_loops colors img imgout (img.height : Int) (img.width : Int) i j
        = closest_color colors (pixel img (i : Int) (j : Int)) := by
    intro i j hi hj
    rw [decode_and_resize_cell colors img imgout (img.height : Int) (img.width : Int)
      i j (by omega) (le_refl _) (by omega) (le_refl _) (by omega) (by omega),
      cell_same_size colors img i j hH hW hi hj]
  refine ⟨_, _, rfl, rfl, ?_, ?_⟩
  · intro i j hi hj
    rw [hcell i j hi hj]
    obtain ⟨rowsl, hr, hget⟩ := decode_file_apply colors img i j hi hj
    have hr2 : decode_file colors (some img) = Except.ok
        ((List.range img.height).map (fun i =>
          (List.range img.width).map (fun j => closest_color colors (file_pixel img i j)))) :=
      rfl
    rw [hr2] at hr
    injection hr with hr
    rw [hr, hget, pixel_eq_file_pixel]
  · intro hbuf i j hi hj
    rw [hcell i j hi hj, pixel_eq_source_pixel img i j hi hj hbuf]

/-- Witness for C5: the 2x2 red and blue image resized to 2x2. -/
theorem resize_same_size_eq_decode_file_witness :
    (red_blue_image.height ≤ 65535 ∧ red_blue_image.width ≤ 65535 ∧
      3 * red_blue_image.width * red_blue_image.height ≤ 4294967296) ∧
    ∃ (g : Grid) (rowsl : List (List Int)),
      decode_and_resize palette_red_blue (some red_blue_image) (fun _ _ => -1)
          (red_blue_image.height : Int) (red_blue_image.width : Int) = Except.ok g ∧
      decode_file palette_red_blue (some red_blue_image) = Except.ok rowsl ∧
      (∀ i j : Nat, i < red_blue_image.height → j < red_blue_image.width →
        rowsl[i]?.bind (fun row => row[j]?) = some (g i j)) ∧
      (∀ i j : Nat, i < red_blue_image.height → j < red_blue_image.width →
        g i j = closest_color palette_red_blue (source_pixel red_blue_image i j)) := by
  obtain ⟨g, rowsl, h1, h2, h3, h4⟩ :=
    resize_same_size_eq_decode_file palette_red_blue red_blue_image (fun _ _ => -1)
      (by decide) (by decide)
  exact ⟨by decide, g, rowsl, h1, h2, h3, h4 (by decide)⟩

/-- Counterexamples to C5 as stated. (1) For the all-white image of 65536 rows and
one column resized to 65536 rows and one column, `height * (i+1)` wraps around to 0
in the last row: the box of cell `(65535, 0)` is empty, every cost is 0 and index 0
(black) is written, while `closest_color` of the white source pixel, the entry of
`decode_file`, is 1. (2) For the 40000x40000 two-tone image resized to 40000x40000,
the byte position of pixel `(35792, 0)` wraps around from 4295040000 to 72704: index
0 (black) is written to cell `(35792, 0)`, as `decode_file` stores it, while
`closest_color` of the white source pixel `(35792, 0)` is 1. -/
theorem resize_same_size_differs :
    ((white_column 65536).data.length
        = 3 * (white_column 65536).width * (white_column 65536).height ∧
      ∃ (g : Grid) (rowsl : List (List Int)),
        decode_and_resize palette_black_first (some (white_column 65536)) (fun _ _ => -1)
            ((white_column 65536).height : Int) ((white_column 65536).width : Int)
          = Except.ok g ∧
        decode_file palette_black_first (some (white_column 65536)) = Except.ok rowsl ∧
        g 65535 0 = 0 ∧
        closest_color palette_black_first (source_pixel (white_column 65536) 65535 0) = 1 ∧
        rowsl[65535]?.bind (fun row => row[0]?) = some 1) ∧
    ((two_tone_image 505032704).data.length
        = 3 * (two_tone_image 505032704).width * (two_tone_image 505032704).height ∧
      ∃ (g : Grid) (rowsl : List (List Int)),
        decode_and_resize palette_black_first (some (two_tone_image 505032704))
            (fun _ _ => -1) ((two_tone_image 505032704).height : Int)
            ((two_tone_image 505032704).width : Int)
          = Except.ok g ∧
        decode_file palette_black_first (some (two_tone_image 505032704))
          = Except.ok rowsl ∧
        g 35792 0 = 0 ∧
        closest_color palette_black_first (source_pixel (two_tone_image 505032704) 35792 0)
          = 1 ∧
        rowsl[35792]?.bind (fun row => row[0]?) = some 0) := by
  constructor
  · have hp : pixel (white_column 65536) 65535 0 = 16777215 :=
      pixel_white_column 65536 65535 0 (by decide) (by decide) (by decide)
    obtain ⟨rowsl, hr, hget⟩ := decode_file_apply palette_black_first (white_column 65536)
      65535 0 (by decide) (by decide)
    obtain ⟨g, hg, hcell⟩ := white_column_cell
    refine ⟨white_column_length 65536, g, rowsl, hg, hr, hcell, ?_, ?_⟩
    · rw [source_pixel_white_column 65536 65535 (by decide)]
      exact closest_color_black_first
    · rw [hget]
      have : file_pixel (white_column 65536) 65535 0 = pixel (white_column 65536) 65535 0 :=
        (pixel_eq_file_pixel (white_column 65536) 65535 0).symm
      rw [this, hp, closest_color_black_first]
  · obtain ⟨rowsl, hr, hget⟩ := decode_file_apply palette_black_first
      (two_tone_image 505032704) 35792 0 (by decide) (by decide)
    obtain ⟨g, hg, hcell⟩ := two_tone_cell
    refine ⟨two_tone_image_length, g, rowsl, hg, hr, hcell, ?_, ?_⟩
    · rw [source_pixel_two_tone]
      exact closest_color_black_first
    · rw [hget]
      have : file_pixel (two_tone_image 505032704) 35792 0
          = pixel (two_tone_image 505032704) 35792 0 :=
        (pixel_eq_file_pixel (two_tone_image 505032704) 35792 0).symm
      rw [this, pixel_two_tone, closest_color_black_first_black]

/-- C6. `closest_color` returns the lowest index at minimal distance: the result is
at minimal distance, every palette index below it is strictly farther from the
colour, and when exactly two entries `k < m` are at the minimal distance the lower
index `k` is returned. -/
theorem closest_color_lowest_index (colors : Palette) (color : Int) :
    ∃ i : Fin 256,
      closest_color colors color = (i.val : Int) ∧
      (∀ k : Fin 256, color_difference color (to_int (colors i))
          ≤ color_difference color (to_int (colors k))) ∧
      (∀ k : Fin 256, k < i →
        color_difference color (to_int (colors i))
          < color_difference color (to_int (colors k))) ∧
      (∀ k m : Fin 256, k < m →
        color_difference color (to_int (colors k))
          = color_difference color (to_int (colors m)) →
        (∀ n : Fin 256, n ≠ k → n ≠ m →
          color_difference color (to_int (colors k))
            < color_difference color (to_int (colors n))) →
        closest_color colors color = (k.val : Int)) := by
  obtain ⟨i, heq, hmin, hfirst⟩ := closest_color_loop_spec colors color
  have hres : closest_color colors color = (i.val : Int) := by
    simp only [closest_color, heq]
  refine ⟨i, hres, hmin, hfirst, ?_⟩
  intro k m hkm hequal hothers
  rw [hres]
  by_cases hik : i = k
  · rw [hik]
  · by_cases him : i = m
    · subst him
      have := hfirst k hkm
      omega
    · have h1 := hothers i hik him
      have h2 := hmin k
      omega

/-- C7 (amended). For the 2x2 image with a red first row and a blue second row and
any palette: resizing to the 1x2 grid (`R = 1`, `C = 2`) writes one and the same
index to both cells, the lowest index minimising the sum of the distances to red
and to blue; resizing to the 2x1 grid (`R = 2`, `C = 1`) writes
`closest_color(255,0,0)` to cell `(0,0)` and `closest_color(0,0,255)` to cell
`(1,0)`. -/
theorem red_blue_end_to_end (colors : Palette) (imgout : Grid) :
    (∃ g : Grid, decode_and_resize colors (some red_blue_image) imgout 1 2 = Except.ok g ∧
      g 0 0 = g 0 1 ∧
      ∃ k : Fin 256, g 0 0 = (k.val : Int) ∧
        (∀ m : Fin 256,
          color_difference (combine_rgb 255 0 0) (to_int (colors k))
              + color_difference (combine_rgb 0 0 255) (to_int (colors k))
            ≤ color_difference (combine_rgb 255 0 0) (to_int (colors m))
              + color_difference (combine_rgb 0 0 255) (to_int (colors m))) ∧
        (∀ m : Fin 256, m < k →
          color_difference (combine_rgb 255 0 0) (to_int (colors k))
              + color_difference (combine_rgb 0 0 255) (to_int (colors k))
            < color_difference (combine_rgb 255 0 0) (to_int (colors m))
              + color_difference (combine_rgb 0 0 255) (to_int (colors m)))) ∧
    (∃ g : Grid, decode_and_resize colors (some red_blue_image) imgout 2 1 = Except.ok g ∧
      g 0 0 = closest_color colors (combine_rgb 255 0 0) ∧
      g 1 0 = closest_color colors (combine_rgb 0 0 255)) := by
  have cr : combine_rgb 255 0 0 = 16711680 := by decide
  have cb : combine_rgb 0 0 255 = 255 := by decide
  rw [cr, cb]
  constructor
  · refine ⟨_, rfl, ?_⟩
    rw [decode_and_resize_cell colors red_blue_image imgout 1 2 0 0 (by decide) (by decide)
        (by decide) (by decide) (by decide) (by decide),
      decode_and_resize_cell colors red_blue_image imgout 1 2 0 1 (by decide) (by decide)
        (by decide) (by decide) (by decide) (by decide),
      cell_eq, cell_eq]
    have e1 : x1 red_blue_image.height 1 0 = 0 := by decide
    have e2 : x2 red_blue_image.height 1 0 = 2 := by decide
    have e3 : y1 red_blue_image.width 2 0 = 0 := by decide
    have e4 : y2 red_blue_image.width 2 0 = 1 := by decide
    have e5 : y1 red_blue_image.width 2 1 = 1 := by decide
    have e6 : y2 red_blue_image.width 2 1 = 2 := by decide
    rw [e1, e2, e3, e4, e5, e6]
    rw [cell_loop_congr colors red_blue_image 0 2 1 2 0 2 0 1
      (fun k => (curr_cost_red_blue_column colors k).2)]
    refine ⟨rfl, ?_⟩
    rcases cell_loop_spec colors red_blue_image 0 2 0 1 with
      ⟨-, hall⟩ | ⟨k, heq, -, hmin, hfirst⟩
    · have h0 := hall 0
      have a := (curr_cost_red_blue_column colors 0).1
      have l1 := color_difference_le 16711680 (to_int (colors 0))
      have l2 := color_difference_le 255 (to_int (colors 0))
      omega
    · refine ⟨k, by rw [heq], ?_, ?_⟩
      · intro m
        rw [← (curr_cost_red_blue_column colors k).1, ← (curr_cost_red_blue_column colors m).1]
        exact_mod_cast hmin m
      · intro m hm
        rw [← (curr_cost_red_blue_column colors k).1, ← (curr_cost_red_blue_column colors m).1]
        exact_mod_cast hfirst m hm
  · refine ⟨_, rfl, ?_⟩
    rw [decode_and_resize_cell colors red_blue_image imgout 2 1 0 0 (by decide) (by decide)
        (by decide) (by decide) (by decide) (by decide),
      decode_and_resize_cell colors red_blue_image imgout 2 1 1 0 (by decide) (by decide)
        (by decide) (by decide) (by decide) (by decide),
      cell_eq, cell_eq]
    have e1 : x1 red_blue_image.height 2 0 = 0 := by decide
    have e2 : x2 red_blue_image.height 2 0 = 1 := by decide
    have e3 : x1 red_blue_image.height 2 1 = 1 := by decide
    have e4 : x2 red_blue_image.height 2 1 = 2 := by decide
    have e5 : y1 red_blue_image.width 1 0 = 0 := by decide
    have e6 : y2 red_blue_image.width 1 0 = 2 := by decide
    rw [e1, e2, e3, e4, e5, e6]
    exact ⟨cell_loop_eq_closest_color colors red_blue_image 0 1 0 2 16711680 2 (by decide)
        (by decide) (fun k => (curr_cost_red_blue_rows colors k).1),
      cell_loop_eq_closest_color colors red_blue_image 1 2 0 2 255 2 (by decide)
        (by decide) (fun k => (curr_cost_red_blue_rows colors k).2)⟩

/-- Counterexample to C7 as stated. With red at palette index 0, blue at index 1
and black fillers, the 1x2 grid receives index 0 in cell `(0,1)`, whose box is the
second column (one red and one blue pixel), whereas `closest_color(0,0,255)` is
1. -/
theorem red_blue_one_by_two_differs :
    red_blue_image.data.length = 3 * red_blue_image.width * red_blue_image.height ∧
    to_int (palette_red_blue 0) = combine_rgb 255 0 0 ∧
    to_int (palette_red_blue 1) = combine_rgb 0 0 255 ∧
    ∃ g : Grid,
      decode_and_resize palette_red_blue (some red_blue_image) (fun _ _ => -1) 1 2
        = Except.ok g ∧
      g 0 1 = 0 ∧ closest_color palette_red_blue (combine_rgb 0 0 255) = 1 := by
  have cb : combine_rgb 0 0 255 = 255 := by decide
  refine ⟨by decide, by decide, by decide, _, rfl, ?_, ?_⟩
  · rw [decode_and_resize_cell palette_red_blue red_blue_image _ 1 2 0 1 (by decide)
      (by decide) (by decide) (by decide) (by decide) (by decide), cell_eq]
    have e1 : x1 red_blue_image.height 1 0 = 0 := by decide
    have e2 : x2 red_blue_image.height 1 0 = 2 := by decide
    have e5 : y1 red_blue_image.width 2 1 = 1 := by decide
    have e6 : y2 red_blue_image.width 2 1 = 2 := by decide
    rw [e1, e2, e5, e6]
    apply cell_loop_const _ _ _ _ _ _ 130050 (by decide)
    intro k
    have h := curr_cost_red_blue_column palette_red_blue k
    rw [palette_red_blue_cost_red, palette_red_blue_cost_blue] at h
    rw [h.2]
    have h1 := h.1
    by_cases hk0 : k.val = 0
    · simp [hk0] at h1; omega
    · by_cases hk1 : k.val = 1
      · simp [hk1] at h1; omega
      · simp [hk0, hk1] at h1; omega
  · rw [cb]
    exact closest_color_red_blue_blue

/-- C8. On channel values in `[0,255]`, the distance between two combined colours
is the sum of the squared channel differences. -/
theorem color_difference_combine_rgb (r1 g1 b1 r2 g2 b2 : Int)
    (hr1 : 0 ≤ r1 ∧ r1 ≤ 255) (hg1 : 0 ≤ g1 ∧ g1 ≤ 255) (hb1 : 0 ≤ b1 ∧ b1 ≤ 255)
    (hr2 : 0 ≤ r2 ∧ r2 ≤ 255) (hg2 : 0 ≤ g2 ∧ g2 ≤ 255) (hb2 : 0 ≤ b2 ∧ b2 ≤ 255) :
    color_difference (combine_rgb r1 g1 b1) (combine_rgb r2 g2 b2)
      = (r1 - r2) ^ 2 + (g1 - g2) ^ 2 + (b1 - b2) ^ 2 := by
  have e1 : (combine_rgb r1 g1 b1) % 256 = b1 := by unfold combine_rgb; omega
  have e2 : (combine_rgb r1 g1 b1) / 256 % 256 = g1 := by unfold combine_rgb; omega
  have e3 : (combine_rgb r1 g1 b1) / 65536 % 256 = r1 := by unfold combine_rgb; omega
  have e4 : (combine_rgb r2 g2 b2) % 256 = b2 := by unfold combine_rgb; omega
  have e5 : (combine_rgb r2 g2 b2) / 256 % 256 = g2 := by unfold combine_rgb; omega
  have e6 : (combine_rgb r2 g2 b2) / 65536 % 256 = r2 := by unfold combine_rgb; omega
  simp only [color_difference, e1, e2, e3, e4, e5, e6]
  ring

/-- Witness for C8: red against blue. -/
theorem color_difference_combine_rgb_witness :
    ((0 : Int) ≤ 255 ∧ (255 : Int) ≤ 255) ∧ ((0 : Int) ≤ 0 ∧ (0 : Int) ≤ 255) ∧
    color_difference (combine_rgb 255 0 0) (combine_rgb 0 0 255)
      = (255 - 0) ^ 2 + (0 - 0) ^ 2 + (0 - 255) ^ 2 :=
  ⟨by decide, by decide,
    color_difference_combine_rgb 255 0 0 0 0 255 (by decide) (by decide) (by decide)
      (by decide) (by decide) (by decide)⟩

/-- C9. The colour distance is symmetric. -/
theorem color_difference_symm (a b : Int) :
    color_difference a b = color_difference b a := by
  simp only [color_difference]
  ring

/-- C10. For 24-bit colours the distance is zero exactly when the colours are
equal; the distance from a colour to itself is zero. -/
theorem color_difference_eq_zero_iff (a b : Int)
    (ha : 0 ≤ a ∧ a < 16777216) (hb : 0 ≤ b ∧ b < 16777216) :
    (color_difference a b = 0 ↔ a = b) ∧ color_difference a a = 0 := by
  have hself : ∀ c : Int, color_difference c c = 0 := by
    intro c; simp [color_difference]
  refine ⟨⟨?_, ?_⟩, hself a⟩
  · intro h
    simp only [color_difference] at h
    have s1 := mul_self_nonneg (a % 256 - b % 256)
    have s2 := mul_self_nonneg (a / 256 % 256 - b / 256 % 256)
    have s3 := mul_self_nonneg (a / 65536 % 256 - b / 65536 % 256)
    have z1 : (a % 256 - b % 256) * (a % 256 - b % 256) = 0 := by omega
    have z2 : (a / 256 % 256 - b / 256 % 256) * (a / 256 % 256 - b / 256 % 256) = 0 := by
      omega
    have z3 : (a / 65536 % 256 - b / 65536 % 256) * (a / 65536 % 256 - b / 65536 % 256) = 0 := by
      omega
    have y1 := mul_self_eq_zero.1 z1
    have y2 := mul_self_eq_zero.1 z2
    have y3 := mul_self_eq_zero.1 z3
    omega
  · rintro rfl
    exact hself a

/-- Witness for C10 at the colours `0x123456` and `0x654321`. -/
theorem color_difference_eq_zero_iff_witness :
    ((0 : Int) ≤ 1193046 ∧ (1193046 : Int) < 16777216) ∧
    ((0 : Int) ≤ 6636321 ∧ (6636321 : Int) < 16777216) ∧
    ((color_difference 1193046 6636321 = 0 ↔ (1193046 : Int) = 6636321) ∧
      color_difference 1193046 1193046 = 0) :=
  ⟨by decide, by decide,
    color_difference_eq_zero_iff 1193046 6636321 (by decide) (by decide)⟩

/-- C11 (amended). For `1 ≤ R ≤ H`, `1 ≤ C ≤ W`, `3*W*H ≤ 2^32`, `H*R < 2^32`,
`W*C < 2^32` and a cell `(i, j)` whose box, rows `[floor(H*i/R), floor(H*(i+1)/R))`
and columns `[floor(W*j/C), floor(W*(j+1)/C))`, holds `n ≤ 22017` source pixels, the
box is not empty and the index written to the cell is a nearest palette entry to the
average colour of the source pixels of the box: it minimises `|S - n * palette[k]|^2`
(`S` the per-channel sums) and the squared distance between `palette[k]` and the
per-channel mean, and it is the lowest index that does. -/
theorem decode_and_resize_nearest_to_mean (colors : Palette) (img : Image) (imgout : Grid)
    (R C i j : Nat)
    (hR : 1 ≤ R) (hRH : R ≤ img.height) (hC : 1 ≤ C) (hCW : C ≤ img.width)
    (hi : i < R) (hj : j < C)
    (hbuf : 3 * img.width * img.height ≤ 4294967296)
    (hrow : img.height * R < 4294967296) (hcol : img.width * C < 4294967296)
    (hbox : source_count (box_lo img.height R i) (box_hi img.height R i)
      (box_lo img.width C j) (box_hi img.width C j) ≤ 22017) :
    1 ≤ source_count (box_lo img.height R i) (box_hi img.height R i)
      (box_lo img.width C j) (box_hi img.width C j) ∧
    ∃ g : Grid,
      decode_and_resize colors (some img) imgout (R : Int) (C : Int) = Except.ok g ∧
      ∃ k : Fin 256, g i j = (k.val : Int) ∧
        (∀ m : Fin 256,
          source_sum_distance colors img (box_lo img.height R i) (box_hi img.height R i)
              (box_lo img.width C j) (box_hi img.width C j) k
            ≤ source_sum_distance colors img (box_lo img.height R i) (box_hi img.height R i)
              (box_lo img.width C j) (box_hi img.width C j) m ∧
          source_mean_distance colors img (box_lo img.height R i) (box_hi img.height R i)
              (box_lo img.width C j) (box_hi img.width C j) k
            ≤ source_mean_distance colors img (box_lo img.height R i) (box_hi img.height R i)
              (box_lo img.width C j) (box_hi img.width C j) m) ∧
        (∀ m : Fin 256, m < k →
          source_sum_distance colors img (box_lo img.height R i) (box_hi img.height R i)
              (box_lo img.width C j) (box_hi img.width C j) k
            < source_sum_distance colors img (box_lo img.height R i) (box_hi img.height R i)
              (box_lo img.width C j) (box_hi img.width C j) m ∧
          source_mean_distance colors img (box_lo img.height R i) (box_hi img.height R i)
              (box_lo img.width C j) (box_hi img.width C j) k
            < source_mean_distance colors img (box_lo img.height R i) (box_hi img.height R i)
              (box_lo img.width C j) (box_hi img.width C j) m) := by
  obtain ⟨hcell, ⟨hr0, hr⟩, ⟨hc0, hc⟩⟩ :=
    cell_exact colors img imgout R C i j hR hRH hC hCW hi hj hbuf hrow hcol
  have hn : 1 ≤ source_count (box_lo img.height R i) (box_hi img.height R i)
      (box_lo img.width C j) (box_hi img.width C j) :=
    Nat.mul_pos (by omega) (by omega)
  refine ⟨hn, _, rfl, ?_⟩
  have hn2 : 1 ≤ box_count ((box_lo img.height R i : Nat) : Int)
      ((box_hi img.height R i : Nat) : Int) ((box_lo img.width C j : Nat) : Int)
      ((box_hi img.width C j : Nat) : Int) := by
    rw [box_count_natCast]; exact hn
  have hb2 : box_count ((box_lo img.height R i : Nat) : Int)
      ((box_hi img.height R i : Nat) : Int) ((box_lo img.width C j : Nat) : Int)
      ((box_hi img.width C j : Nat) : Int) ≤ 22017 := by
    rw [box_count_natCast]; exact hbox
  obtain ⟨k, hk, hmin, hfirst⟩ := cell_loop_nearest_sum colors img _ _ _ _ hn2 hb2
  have hpos : (0 : Rat) < (box_count ((box_lo img.height R i : Nat) : Int)
      ((box_hi img.height R i : Nat) : Int) ((box_lo img.width C j : Nat) : Int)
      ((box_hi img.width C j : Nat) : Int) : Rat) ^ 2 := by
    have : (0 : Rat) < (box_count ((box_lo img.height R i : Nat) : Int)
      ((box_hi img.height R i : Nat) : Int) ((box_lo img.width C j : Nat) : Int)
      ((box_hi img.width C j : Nat) : Int) : Rat) := by exact_mod_cast hn2
    positivity
  refine ⟨k, hcell.trans hk, ?_, ?_⟩
  · intro m
    rw [← sum_distance_eq_source colors img _ _ _ _ k hr hc hbuf,
      ← sum_distance_eq_source colors img _ _ _ _ m hr hc hbuf,
      ← mean_distance_eq_source colors img _ _ _ _ k hr hc hbuf,
      ← mean_distance_eq_source colors img _ _ _ _ m hr hc hbuf]
    refine ⟨hmin m, ?_⟩
    rw [mean_distance_eq _ _ _ _ _ _ k hn2, mean_distance_eq _ _ _ _ _ _ m hn2]
    exact div_le_div_of_nonneg_right (by exact_mod_cast hmin m) (le_of_lt hpos)
  · intro m hm
    rw [← sum_distance_eq_source colors img _ _ _ _ k hr hc hbuf,
      ← sum_distance_eq_source colors img _ _ _ _ m hr hc hbuf,
      ← mean_distance_eq_source colors img _ _ _ _ k hr hc hbuf,
      ← mean_distance_eq_source colors img _ _ _ _ m hr hc hbuf]
    refine ⟨hfirst m hm, ?_⟩
    rw [mean_distance_eq _ _ _ _ _ _ k hn2, mean_distance_eq _ _ _ _ _ _ m hn2]
    exact div_lt_div_of_pos_right (by exact_mod_cast hfirst m hm) hpos

/-- Witness for C11: cell `(0,0)` of the 1x2 grid over the red and blue image. -/
theorem decode_and_resize_nearest_to_mean_witness :
    (3 * red_blue_image.width * red_blue_image.height ≤ 4294967296 ∧
      red_blue_image.height * 1 < 4294967296 ∧ red_blue_image.width * 2 < 4294967296 ∧
      source_count (box_lo red_blue_image.height 1 0) (box_hi red_blue_image.height 1 0)
        (box_lo red_blue_image.width 2 0) (box_hi red_blue_image.width 2 0) ≤ 22017) ∧
    1 ≤ source_count (box_lo red_blue_image.height 1 0) (box_hi red_blue_image.height 1 0)
      (box_lo red_blue_image.width 2 0) (box_hi red_blue_image.width 2 0) ∧
    ∃ g : Grid,
      decode_and_resize palette_red_blue (some red_blue_image) (fun _ _ => -1)
        ((1 : Nat) : Int) ((2 : Nat) : Int) = Except.ok g ∧
      ∃ k : Fin 256, g 0 0 = (k.val : Int) ∧
        (∀ m : Fin 256,
          source_sum_distance palette_red_blue red_blue_image
              (box_lo red_blue_image.height 1 0) (box_hi red_blue_image.height 1 0)
              (box_lo red_blue_image.width 2 0) (box_hi red_blue_image.width 2 0) k
            ≤ source_sum_distance palette_red_blue red_blue_image
              (box_lo red_blue_image.height 1 0) (box_hi red_blue_image.height 1 0)
              (box_lo red_blue_image.width 2 0) (box_hi red_blue_image.width 2 0) m ∧
          source_mean_distance palette_red_blue red_blue_image
              (box_lo red_blue_image.height 1 0) (box_hi red_blue_image.height 1 0)
              (box_lo red_blue_image.width 2 0) (box_hi red_blue_image.width 2 0) k
            ≤ source_mean_distance palette_red_blue red_blue_image
              (box_lo red_blue_image.height 1 0) (box_hi red_blue_image.height 1 0)
              (box_lo red_blue_image.width 2 0) (box_hi red_blue_image.width 2 0) m) ∧
        (∀ m : Fin 256, m < k →
          source_sum_distance palette_red_blue red_blue_image
              (box_lo red_blue_image.height 1 0) (box_hi red_blue_image.height 1 0)
              (box_lo red_blue_image.width 2 0) (box_hi red_blue_image.width 2 0) k
            < source_sum_distance palette_red_blue red_blue_image
              (box_lo red_blue_image.height 1 0) (box_hi red_blue_image.height 1 0)
              (box_lo red_blue_image.width 2 0) (box_hi red_blue_image.width 2 0) m ∧
          source_mean_distance palette_red_blue red_blue_image
              (box_lo red_blue_image.height 1 0) (box_hi red_blue_image.height 1 0)
              (box_lo red_blue_image.width 2 0) (box_hi red_blue_image.width 2 0) k
            < source_mean_distance palette_red_blue red_blue_image
              (box_lo red_blue_image.height 1 0) (box_hi red_blue_image.height 1 0)
              (box_lo red_blue_image.width 2 0) (box_hi red_blue_image.width 2 0) m) :=
  ⟨by decide,
    decode_and_resize_nearest_to_mean palette_red_blue red_blue_image (fun _ _ => -1) 1 2 0 0
      (by decide) (by decide) (by decide) (by decide) (by decide) (by decide) (by decide)
      (by decide) (by decide) (by decide)⟩

/-- Counterexamples to C11 as stated, one for each 32-bit wrap-around. (1) On the
all-black 22018x1 image resized to a 1x1 grid, with white at palette index 0 and
`0xFFFFFE` elsewhere, index 0 is written (its accumulated cost wraps around),
although entry 1 is strictly nearer to the channel sums, which are all 0, hence to
the mean colour. (2) On the 40000x40000 two-tone image resized to 40000x40000, with
black at palette index 0 and white elsewhere, the byte position of pixel
`(35792, 0)` wraps around from 4295040000 to 72704: index 0 is written to cell
`(35792, 0)` although the only source pixel of the box is white and entry 1 is
strictly nearer to it. (3) On the all-white image of 65536 rows and one column
resized to 65536x1, `height * 65536` wraps around to 0: index 0 is written to cell
`(65535, 0)` although the only source pixel of the box is white and entry 1 is
strictly nearer to it. -/
theorem decode_and_resize_not_nearest_to_mean :
    ((black_strip 22018).data.length
        = 3 * (black_strip 22018).width * (black_strip 22018).height ∧
      source_count (box_lo (black_strip 22018).height 1 0)
          (box_hi (black_strip 22018).height 1 0) (box_lo (black_strip 22018).width 1 0)
          (box_hi (black_strip 22018).width 1 0) = 22018 ∧
      ∃ g : Grid,
        decode_and_resize palette_white_first (some (black_strip 22018)) (fun _ _ => -1) 1 1
          = Except.ok g ∧
        g 0 0 = 0 ∧
        source_sum_distance palette_white_first (black_strip 22018)
            (box_lo (black_strip 22018).height 1 0) (box_hi (black_strip 22018).height 1 0)
            (box_lo (black_strip 22018).width 1 0) (box_hi (black_strip 22018).width 1 0) 1
          < source_sum_distance palette_white_first (black_strip 22018)
            (box_lo (black_strip 22018).height 1 0) (box_hi (black_strip 22018).height 1 0)
            (box_lo (black_strip 22018).width 1 0) (box_hi (black_strip 22018).width 1 0) 0) ∧
    ((two_tone_image 505032704).data.length
        = 3 * (two_tone_image 505032704).width * (two_tone_image 505032704).height ∧
      ∃ g : Grid,
        decode_and_resize palette_black_first (some (two_tone_image 505032704))
          (fun _ _ => -1) 40000 40000 = Except.ok g ∧
        g 35792 0 = 0 ∧
        source_sum_distance palette_black_first (two_tone_image 505032704)
            (box_lo (two_tone_image 505032704).height 40000 35792)
            (box_hi (two_tone_image 505032704).height 40000 35792)
            (box_lo (two_tone_image 505032704).width 40000 0)
            (box_hi (two_tone_image 505032704).width 40000 0) 1
          < source_sum_distance palette_black_first (two_tone_image 505032704)
            (box_lo (two_tone_image 505032704).height 40000 35792)
            (box_hi (two_tone_image 505032704).height 40000 35792)
            (box_lo (two_tone_image 505032704).width 40000 0)
            (box_hi (two_tone_image 505032704).width 40000 0) 0) ∧
    ((white_column 65536).data.length
        = 3 * (white_column 65536).width * (white_column 65536).height ∧
      ∃ g : Grid,
        decode_and_resize palette_black_first (some (white_column 65536)) (fun _ _ => -1)
          65536 1 = Except.ok g ∧
        g 65535 0 = 0 ∧
        source_sum_distance palette_black_first (white_column 65536)
            (box_lo (white_column 65536).height 65536 65535)
            (box_hi (white_column 65536).height 65536 65535)
            (box_lo (white_column 65536).width 1 0) (box_hi (white_column 65536).width 1 0) 1
          < source_sum_distance palette_black_first (white_column 65536)
            (box_lo (white_column 65536).height 65536 65535)
            (box_hi (white_column 65536).height 65536 65535)
            (box_lo (white_column 65536).width 1 0)
            (box_hi (white_column 65536).width 1 0) 0) := by
  refine ⟨⟨black_strip_length 22018, by decide, _, rfl, ?_, ?_⟩, ⟨two_tone_image_length, ?_⟩,
    ⟨white_column_length 65536, ?_⟩⟩
  · have e1 : x1 (black_strip 22018).height 1 0 = 0 := by decide
    have e2 : x2 (black_strip 22018).height 1 0 = 1 := by decide
    have e3 : y1 (black_strip 22018).width 1 0 = 0 := by decide
    have e4 : y2 (black_strip 22018).width 1 0 = 22018 := by decide
    rw [decode_and_resize_cell _ _ _ _ _ _ _ (by decide) (by decide) (by decide) (by decide)
      (by decide) (by decide), cell_eq, e1, e2, e3, e4]
    exact cell_loop_white_first
  · have b1 : box_lo (black_strip 22018).height 1 0 = 0 := by decide
    have b2 : box_hi (black_strip 22018).height 1 0 = 1 := by decide
    have b3 : box_lo (black_strip 22018).width 1 0 = 0 := by decide
    have b4 : box_hi (black_strip 22018).width 1 0 = 22018 := by decide
    rw [b1, b2, b3, b4, source_sum_distance_white_first, source_sum_distance_white_first]
    decide
  · obtain ⟨g, hg, hcell⟩ := two_tone_cell
    have b1 : box_lo (two_tone_image 505032704).height 40000 35792 = 35792 := by decide
    have b2 : box_hi (two_tone_image 505032704).height 40000 35792 = 35792 + 1 := by decide
    have b3 : box_lo (two_tone_image 505032704).width 40000 0 = 0 := by decide
    have b4 : box_hi (two_tone_image 505032704).width 40000 0 = 0 + 1 := by decide
    refine ⟨g, hg, hcell, ?_⟩
    rw [b1, b2, b3, b4, source_sum_distance_single, source_sum_distance_single,
      source_pixel_two_tone, palette_black_first_cost, palette_black_first_cost]
    decide
  · obtain ⟨g, hg, hcell⟩ := white_column_cell
    have b1 : box_lo (white_column 65536).height 65536 65535 = 65535 := by decide
    have b2 : box_hi (white_column 65536).height 65536 65535 = 65535 + 1 := by decide
    have b3 : box_lo (white_column 65536).width 1 0 = 0 := by decide
    have b4 : box_hi (white_column 65536).width 1 0 = 0 + 1 := by decide
    refine ⟨g, hg, hcell, ?_⟩
    rw [b1, b2, b3, b4, source_sum_distance_single, source_sum_distance_single,
      source_pixel_white_column 65536 65535 (by decide),
      palette_black_first_cost, palette_black_first_cost]
    decide

/-- C12 (amended). In a palette file whose lines up to line `k < 256` have at most
14 characters and a colon, if the value text of line `k` (the characters after its
first colon) does not start, after white space and an optional sign, with a
hexadecimal digit, then `std::stoi` throws: the loader ends with
`std::invalid_argument` or `std::out_of_range` and holds no palette, and `main` ends
with that exception whatever the image and the terminal size are, so no grid is
computed. -/
theorem stoi_failure_is_fatal (line0 : List Char) (lines : List (List Char)) (k : Nat)
    (hk : k < 256)
    (hread : ∀ t, t ≤ k → ∃ l : List Char, lines[t]? = some l ∧ l.length ≤ 14 ∧ ':' ∈ l)
    (hbad : ∃ l : List Char, lines[k]? = some l ∧
      (drop_sign ((line_text l).dropWhile is_space)).head?.bind hex_digit = none) :
    ∃ e : LoadError,
      load_colors line0 (some lines) = Except.error e ∧
      (e = LoadError.invalid_argument ∨ e = LoadError.out_of_range) ∧
      ∀ (argc : Nat) (rows cols : Int) (grid0 : Grid) (decoded : Option Image),
        argc ≠ 1 →
        main argc line0 (some lines) rows cols grid0 decoded
          = Except.error (MainError.load e) := by
  obtain ⟨l, hl, hno⟩ := hbad
  obtain ⟨e, he, hkind⟩ := load_loop_error (List.finRange 256) lines
    ⟨line0, false, lines⟩ (fun _ => 0) k rfl rfl (by rw [List.length_finRange]; exact hk)
    hread ⟨l, LoadError.invalid_argument, hl, stoi_base16_no_digit _ hno⟩
  have hload := load_colors_of_loop_error line0 lines e he
  exact ⟨e, hload, hkind, fun argc rows cols grid0 decoded hargc =>
    main_of_load_error argc line0 (some lines) rows cols grid0 decoded e hargc hload⟩

/-- Witness for C12: a file whose first line is `0:zz`. -/
theorem stoi_failure_is_fatal_witness :
    ((palette_file "0:zz".toList)[0]? = some "0:zz".toList ∧
      (drop_sign ((line_text "0:zz".toList).dropWhile is_space)).head?.bind hex_digit
        = none) ∧
    ∃ e : LoadError,
      load_colors (List.replicate 15 NUL) (some (palette_file "0:zz".toList))
        = Except.error e ∧
      (e = LoadError.invalid_argument ∨ e = LoadError.out_of_range) ∧
      ∀ (argc : Nat) (rows cols : Int) (grid0 : Grid) (decoded : Option Image),
        argc ≠ 1 →
        main argc (List.replicate 15 NUL) (some (palette_file "0:zz".toList)) rows cols
          grid0 decoded = Except.error (MainError.load e) :=
  ⟨⟨palette_file_zero _, by decide⟩,
    stoi_failure_is_fatal (List.replicate 15 NUL) (palette_file "0:zz".toList) 0 (by decide)
      (fun t ht => ⟨"0:zz".toList, by
        have h0 : t = 0 := Nat.le_zero.1 ht
        subst h0
        exact ⟨palette_file_zero _, by decide, by decide⟩⟩)
      ⟨"0:zz".toList, palette_file_zero _, by decide⟩⟩

/-- Counterexample to C12 as stated. A first line `0:12zz`, whose value is not
hexadecimal, loads 18 into slot 0 (`std::stoi` converts the digits `12` and stops);
a second line `abc` without colon, after the line `00000:ffffff`, loads 16777215
into slot 1 (the scan runs on into what the previous line left in `line`). In both
files the loader returns a palette and raises no error. -/
theorem malformed_lines_accepted :
    (∃ p : Palette,
      load_colors (List.replicate 15 NUL) (some (palette_file "0:12zz".toList))
        = Except.ok p ∧ p 0 = 18) ∧
    (∃ p : Palette,
      stale_file[1]? = some "abc".toList ∧ ':' ∉ "abc".toList ∧
      load_colors (List.replicate 15 NUL) (some stale_file) = Except.ok p ∧
      p 1 = 16777215) := by
  obtain ⟨p, hp, hv⟩ := toOption_map_eq_some _ _ _ load_partial_hex
  obtain ⟨q, hq, hw⟩ := toOption_map_eq_some _ _ _ load_stale_colon
  exact ⟨⟨p, hp, hv⟩, ⟨q, stale_file_one, by decide, hq, hw⟩⟩

/-- C13 (amended). For every palette file whose first 256 lines have the form
`<label>:<6 hexadecimal digits>` with a label of at most 7 characters that holds no
colon (so that the line fits the 14 characters `getline` reads), the loader
succeeds and sets palette slot `i` to the base-16 value of the six digits of line
`i`. -/
theorem load_colors_well_formed (line0 : List Char) (lines : List (List Char))
    (label digits : Fin 256 → List Char)
    (hline : ∀ i : Fin 256, lines[i.val]? = some (label i ++ ':' :: digits i))
    (hlabel : ∀ i : Fin 256, ':' ∉ label i ∧ (label i).length ≤ 7)
    (hdigits : ∀ i : Fin 256,
      (digits i).length = 6 ∧ ∀ c ∈ digits i, (hex_digit c).isSome) :
    ∃ p : Palette, load_colors line0 (some lines) = Except.ok p ∧
      ∀ i : Fin 256, p i = hex_value (digits i) := by
  have htext : ∀ i : Fin 256, line_text (label i ++ ':' :: digits i) = digits i := by
    intro i
    unfold line_text
    rw [after_colon_label _ _ (hlabel i).1]
    have hn : NUL ∉ digits i := fun hm =>
      (hex_digit_ne NUL ((hdigits i).2 NUL hm)).2.2.2.2.2 rfl
    simp [c_string_no_nul _ hn]
  obtain ⟨st, hst, hin, -⟩ := load_loop_ok (fun i => hex_value (digits i))
    (List.finRange 256) lines ⟨line0, false, lines⟩ (fun _ => 0) rfl rfl
    (List.nodup_finRange 256) (by
      intro t ht
      have ht256 : t < 256 := by rw [List.length_finRange] at ht; exact ht
      have hget : (List.finRange 256).get ⟨t, ht⟩ = ⟨t, ht256⟩ :=
        Fin.ext (finRange_get 256 t ht)
      have hd := hdigits ⟨t, ht256⟩
      have hne : digits ⟨t, ht256⟩ ≠ [] := by
        intro e
        have := hd.1
        rw [e] at this
        simp at this
      have hval : hex_value (digits ⟨t, ht256⟩) < 16 ^ 6 := by
        have := hex_value_lt (digits ⟨t, ht256⟩)
        rw [hd.1] at this
        exact this
      refine ⟨label ⟨t, ht256⟩ ++ ':' :: digits ⟨t, ht256⟩,
        (hex_value (digits ⟨t, ht256⟩) : Int), hline ⟨t, ht256⟩, ?_, by simp, ?_, ?_⟩
      · have := (hlabel ⟨t, ht256⟩).2
        simp only [List.length_append, List.length_cons, hd.1]
        omega
      · rw [htext]
        exact stoi_base16_digits _ hne (by rw [hd.1]; decide) hd.2
      · rw [hget, to_unsigned_natCast]
        have e : (16 : Nat) ^ 6 = 16777216 := by decide
        show hex_value (digits ⟨t, ht256⟩) % 4294967296 = hex_value (digits ⟨t, ht256⟩)
        omega)
  exact ⟨st.2, load_colors_of_loop_ok line0 lines st hst,
    fun i => hin i (List.mem_finRange i)⟩

/-- Witness for C13: 256 lines `0:000000`, each of which loads 0. -/
theorem load_colors_well_formed_witness :
    hex_value "000000".toList = 0 ∧
    ∃ p : Palette,
      load_colors (List.replicate 15 NUL) (some (palette_file "0:000000".toList))
        = Except.ok p ∧
      ∀ i : Fin 256, p i = hex_value "000000".toList :=
  ⟨by decide,
    load_colors_well_formed (List.replicate 15 NUL) (palette_file "0:000000".toList)
      (fun _ => "0".toList) (fun _ => "000000".toList)
      (by
        intro i
        rcases i with ⟨_ | n, hn⟩
        · exact palette_file_zero _
        · exact palette_file_succ _ n (by omega))
      (fun _ => (show ':' ∉ "0".toList ∧ "0".toList.length ≤ 7 from by decide))
      (fun _ => (show "000000".toList.length = 6 ∧
        ∀ c ∈ "000000".toList, (hex_digit c).isSome from by decide))⟩

/-- Counterexample to C13 as stated. The line `color000:ff0000` has the form
`<label>:<6 hexadecimal digits>` but 15 characters: `getline(line, 15)` keeps its
first 14, and slot 0 receives `0xff000 = 1044480` instead of `0xff0000 = 16711680`. -/
theorem long_label_truncated :
    ("color000:ff0000".toList = "color000".toList ++ ':' :: "ff0000".toList ∧
      "ff0000".toList.length = 6 ∧ hex_value "ff0000".toList = 16711680) ∧
    ∃ p : Palette,
      load_colors (List.replicate 15 NUL) (some (palette_file "color000:ff0000".toList))
        = Except.ok p ∧
      p 0 = 1044480 := by
  obtain ⟨p, hp, hv⟩ := toOption_map_eq_some _ _ _ load_long_label
  exact ⟨by decide, p, hp, hv⟩

/-- C14. For every grid, `display` writes, for each row in order, a newline and then
for each cell in order `ESC[38;5;<index in decimal>m` followed by the literal of
the source, and nothing else. That literal is not the block glyph U+2588 but the
three characters U+00E2 U+2013 U+02C6: for the 1x1 grid holding index 0 the output
differs from the one the specification describes. -/
theorem display_output :
    (∀ (rows cols : Int) (g : Grid),
      display rows cols g = expected_output glyph_literal rows.toNat cols.toNat g) ∧
    glyph_literal.length = 3 ∧ block_glyph.length = 1 ∧ glyph_literal ≠ block_glyph ∧
    display 1 1 (fun _ _ => 0) = "\n\x1b[38;5;0m\u00e2\u2013\u02c6" ∧
    expected_output block_glyph 1 1 (fun _ _ => 0) = "\n\x1b[38;5;0m\u2588" ∧
    display 1 1 (fun _ _ => 0) ≠ expected_output block_glyph 1 1 (fun _ _ => 0) := by
  refine ⟨display_eq, by decide, by decide, by decide, by decide, by decide, by decide⟩

/-- C15. When the target grid has more rows than the image or more columns than
the image (`rows` and `cols` being `int` values), `decode_and_resize` returns
normally and leaves `imgout` exactly as it was. -/
theorem decode_and_resize_larger_target (colors : Palette) (img : Image) (imgout : Grid)
    (rows cols : Int) (hr : rows < 2147483648) (hc : cols < 2147483648)
    (h : (img.height : Int) < rows ∨ (img.width : Int) < cols) :
    decode_and_resize colors (some img) imgout rows cols = Except.ok imgout ∧
    ∀ g : Grid, decode_and_resize colors (some img) imgout rows cols = Except.ok g →
      ∀ r c : Nat, g r c = imgout r c := by
  have hres : decode_and_resize colors (some img) imgout rows cols = Except.ok imgout := by
    show Except.ok (resize_loops colors img imgout rows cols) = Except.ok imgout
    rw [resize_loops_unchanged colors img imgout rows cols hr hc h]
  refine ⟨hres, ?_⟩
  intro g hg r c
  rw [hres] at hg
  injection hg with hg
  rw [hg]

/-- Witness for C15: the 2x2 image and a target of 3 rows and 2 columns. -/
theorem decode_and_resize_larger_target_witness :
    ((3 : Int) < 2147483648 ∧ (2 : Int) < 2147483648 ∧
      ((red_blue_image.height : Int) < 3 ∨ (red_blue_image.width : Int) < 2)) ∧
    decode_and_resize palette_red_blue (some red_blue_image) (fun _ _ => -7) 3 2
      = Except.ok (fun _ _ => -7) :=
  ⟨by decide,
    (decode_and_resize_larger_target palette_red_blue red_blue_image (fun _ _ => -7) 3 2
      (by decide) (by decide) (by decide)).1⟩

/-- C17. For an image whose buffer has length `3 * W * H` (`W`, `H` being
`unsigned int` values) and a target grid with `1 ≤ R ≤ H`, `1 ≤ C ≤ W`, every row
`a` and column `b` visited for a cell satisfies `0 ≤ a < H` and `0 ≤ b < W`, and
every index `3*(a*W+b)+k`, `k = 0, 1, 2`, both as computed in `unsigned int` and
as a plain integer, is below the buffer length, so the lookup yields the byte
stored there. -/
theorem reads_in_bounds (img : Image) (rows cols : Int) (i j : Nat) (a b : Int) (k : Nat)
    (hlen : img.data.length = 3 * img.width * img.height)
    (hH : img.height < 4294967296) (hW : img.width < 4294967296)
    (hR : 1 ≤ rows) (hRH : rows ≤ (img.height : Int))
    (hC : 1 ≤ cols) (hCW : cols ≤ (img.width : Int))
    (hi : (i : Int) < rows) (hj : (j : Int) < cols)
    (ha : a ∈ int_range (x1 img.height rows i) (x2 img.height rows i))
    (hb : b ∈ int_range (y1 img.width cols j) (y2 img.width cols j))
    (hk : k < 3) :
    (0 ≤ a ∧ a < (img.height : Int)) ∧ (0 ≤ b ∧ b < (img.width : Int)) ∧
    pixel_index img.width a b k < img.data.length ∧
    3 * (a.toNat * img.width + b.toNat) + k < 3 * img.width * img.height ∧
    ∃ byte : Byte, img.data[pixel_index img.width a b k]? = some byte ∧
      byte_at img.data (pixel_index img.width a b k) = (byte.val : Int) := by
  obtain ⟨r1, r2⟩ := bounds_in_extent img.height rows i hR hRH hH hi
  obtain ⟨c1, c2⟩ := bounds_in_extent img.width cols j hC hCW hW hj
  rw [mem_int_range] at ha hb
  unfold x1 x2 at ha
  unfold y1 y2 at hb
  have a0 : 0 ≤ a := by omega
  have a1 : a < (img.height : Int) := by omega
  have b0 : 0 ≤ b := by omega
  have b1 : b < (img.width : Int) := by omega
  obtain ⟨p1, p2⟩ := pixel_index_lt img.width img.height a b k a0 a1 b0 b1 hk
  have hidx : pixel_index img.width a b k < img.data.length := by rw [hlen]; exact p1
  refine ⟨⟨a0, a1⟩, ⟨b0, b1⟩, hidx, p2, img.data[pixel_index img.width a b k], ?_, ?_⟩
  · exact List.getElem?_eq_getElem hidx
  · unfold byte_at
    rw [List.getD_eq_getElem?_getD, List.getElem?_eq_getElem hidx]
    rfl

/-- Witness for C17: the first pixel read for cell `(0,1)` of the 1x2 grid over the
2x2 image. -/
theorem reads_in_bounds_witness :
    (red_blue_image.data.length = 3 * red_blue_image.width * red_blue_image.height ∧
      (1 : Int) ∈ int_range (x1 red_blue_image.height 1 0) (x2 red_blue_image.height 1 0) ∧
      (1 : Int) ∈ int_range (y1 red_blue_image.width 2 1) (y2 red_blue_image.width 2 1)) ∧
    pixel_index red_blue_image.width 1 1 2 < red_blue_image.data.length :=
  ⟨by decide,
    (reads_in_bounds red_blue_image 1 2 0 1 1 1 2 (by decide) (by decide) (by decide)
      (by decide) (by decide) (by decide) (by decide) (by decide) (by decide)
      (by decide) (by decide) (by decide)).2.2.1⟩

/-- C18 (amended). For `1 ≤ R ≤ H`, `1 ≤ C ≤ W` with `H`, `W` below `2^31` and
`H * R`, `W * C` below `2^32`, every cell `(i, j)` of the grid has `x1 < x2` and
`y1 < y2`, so its box holds at least one source pixel; a box that is empty in
either direction would give cost 0 to every index and select index 0. -/
theorem boxes_non_empty (height width : Nat) (rows cols : Int) (i j : Nat)
    (hR : 1 ≤ rows) (hRH : rows ≤ (height : Int))
    (hC : 1 ≤ cols) (hCW : cols ≤ (width : Int))
    (hH31 : height < 2147483648) (hW31 : width < 2147483648)
    (hHR : (height : Int) * rows < 4294967296) (hWC : (width : Int) * cols < 4294967296)
    (hi : (i : Int) < rows) (hj : (j : Int) < cols) :
    x1 height rows i < x2 height rows i ∧ y1 width cols j < y2 width cols j ∧
    1 ≤ (x2 height rows i - x1 height rows i).toNat
          * (y2 width cols j - y1 width cols j).toNat ∧
    (∀ (colors : Palette) (img : Image) (xlo xhi ylo yhi : Int),
      xhi ≤ xlo ∨ yhi ≤ ylo →
      (∀ k : Fin 256, curr_cost colors img xlo xhi ylo yhi k = 0) ∧
      (cell_loop colors img xlo xhi ylo yhi).1 = 0) := by
  have hx := bounds_strict height rows i hR hRH hH31 hHR hi
  have hy := bounds_strict width cols j hC hCW hW31 hWC hj
  refine ⟨hx, hy, ?_, ?_⟩
  · unfold x1 x2 y1 y2
    have a1 : 1 ≤ (to_int ((height * (i + 1) % 4294967296) / to_unsigned rows)
        - to_int ((height * i % 4294967296) / to_unsigned rows)).toNat := by omega
    have a2 : 1 ≤ (to_int ((width * (j + 1) % 4294967296) / to_unsigned cols)
        - to_int ((width * j % 4294967296) / to_unsigned cols)).toNat := by omega
    exact Nat.mul_le_mul a1 a2
  · intro colors img xlo xhi ylo yhi hempty
    have hzero : ∀ k : Fin 256, curr_cost colors img xlo xhi ylo yhi k = 0 := by
      intro k
      rcases hempty with h | h
      · exact curr_cost_empty colors img xlo xhi ylo yhi k h
      · exact curr_cost_empty_cols colors img xlo xhi ylo yhi k h
    exact ⟨hzero, cell_loop_const colors img xlo xhi ylo yhi 0 (by decide) hzero⟩

/-- Witness for C18: cell `(3, 1)` of a 4x2 grid over a 7x5 source. -/
theorem boxes_non_empty_witness :
    ((1 : Int) ≤ 4 ∧ (4 : Int) ≤ ((7 : Nat) : Int) ∧ (1 : Int) ≤ 2 ∧
      (2 : Int) ≤ ((5 : Nat) : Int) ∧ ((3 : Nat) : Int) < 4 ∧ ((1 : Nat) : Int) < 2) ∧
    x1 7 4 3 < x2 7 4 3 ∧ y1 5 2 1 < y2 5 2 1 :=
  have h := boxes_non_empty 7 5 4 2 3 1 (by decide) (by decide) (by decide) (by decide)
    (by decide) (by decide) (by decide) (by decide) (by decide) (by decide)
  ⟨by decide, h.1, h.2.1⟩

/-- Counterexample to C18 as stated. For `H = R = 65536` the last cell has
`x1 = 65535` and `x2 = 0`, because `65536 * 65536` wraps around to 0: its box is
empty. -/
theorem last_box_empty :
    ((1 : Int) ≤ 65536 ∧ (65536 : Int) ≤ ((65536 : Nat) : Int) ∧
      ((65535 : Nat) : Int) < 65536) ∧
    x1 65536 65536 65535 = 65535 ∧ x2 65536 65536 65535 = 0 ∧
    ¬ (x1 65536 65536 65535 < x2 65536 65536 65535) := by
  decide

end TerminalGraphics
